import Mathlib

/-!
# Clustering demo programs: the plotting glue around the library calls

Shallow embedding of `src/mlPackCluster.cpp` and `src/dlib-cluster.cpp`.

* `double` values are modelled by an arbitrary type `α` where they are only copied
  and by an ordered field where arithmetic is done on them.
* `std::unordered_map<size_t, PointCoords>` is an association list with the
  `operator[]` semantics (a missing key is inserted with a default value); its
  iteration order is unspecified, so statements go through keys and lookups.
* The third-party entry points (`KMeans<>::Cluster`, `DBSCAN<>::Cluster`,
  `bottom_up_cluster`, ...) are parameters of the routines that call them; they return
  an `Option`, `none` standing for a call that throws.
* Neither program catches exceptions: in the mlpack `main` a failed load, an
  out-of-bounds `row()`/`shed_row()` or a routine that does not return ends the run
  without an exit status.
-/

namespace Clustering

/-! ## Data model -/

/-- Type `Coords` of the source: `std::vector<DataType>`. -/
abbrev Coords (α : Type) := List α

/-- Type `PointCoords` of the source: `std::pair<Coords, Coords>`. -/
abbrev PointCoords (α : Type) := Coords α × Coords α

/-- Type `Clusters` of the source: `std::unordered_map<size_t, PointCoords>`. -/
abbrev Clusters (α : Type) := List (Nat × PointCoords α)

/-- Keys stored in the map. -/
def keys {α : Type} (m : Clusters α) : List Nat := m.map Prod.fst

/-- Lookup of a key (`find`). -/
def lookup {α : Type} : Clusters α → Nat → Option (PointCoords α)
  | [], _ => none
  | (k', p) :: rest, k => if k' = k then some p else lookup rest k

/-- Mutation through `m[k]`: `operator[]` default-constructs the value (two empty
vectors) when the key is missing, then `f` is applied to the referenced value. -/
def modifyAt {α : Type} : Clusters α → Nat → (PointCoords α → PointCoords α) → Clusters α
  | [], k, f => [(k, f ([], []))]
  | (k', p) :: rest, k, f =>
    if k' = k then (k', f p) :: rest else (k', p) :: modifyAt rest k f

/-- Dense matrix (`arma::mat`, `dlib::matrix<double>`): its dimensions and its
element accessor (`at(r, c)` / `operator()(r, c)`). -/
structure Mat (α : Type) where
  n_rows : Nat
  n_cols : Nat
  elem : Nat → Nat → α

/-- Method `nr()` of a dlib matrix. -/
def Mat.nr {α : Type} (m : Mat α) : Nat := m.n_rows

/-- Method `nc()` of a dlib matrix. -/
def Mat.nc {α : Type} (m : Mat α) : Nat := m.n_cols

/-- Arguments of one `PlotClusters(clusters, name, file_name)` call. -/
structure PlotCall (α : Type) where
  clusters : Clusters α
  name : String
  file_name : String

/-- The global `colors` vector (identical in both programs). -/
def colors : List String :=
  ["black", "red", "blue", "green", "cyan", "yellow", "brown", "magenta"]

/-- The global list of dataset file names (`dataset_names` / `data_names`). -/
def dataset_names : List String :=
  ["dataset0.csv", "dataset1.csv", "dataset2.csv", "dataset3.csv",
   "dataset4.csv", "dataset5.csv"]

/-- Number of elements of `std::set<T>(first, last)`: the elements are inserted one
by one and an element already present is not inserted again. -/
def std_set_size {β : Type} [DecidableEq β] (l : List β) : Nat :=
  (l.foldl (fun s x => if x ∈ s then s else x :: s) []).length

/-- Cluster count selection shared by both `main`s:
`num_clusters = std::set(labels).size(); if (num_clusters < 2) num_clusters = 3;`. -/
def select_num_clusters {β : Type} [DecidableEq β] (labels : List β) : Nat :=
  let num_clusters := std_set_size labels
  if num_clusters < 2 then 3 else num_clusters

/-- The largest `size_t` value (64-bit). -/
def SIZE_MAX : Nat := 2 ^ 64 - 1

/-! ## `mlPackCluster.cpp` -/

namespace mlpack

/-- Colour lookup of `PlotClusters`:
`color_index = cluster.first % colors.size(); colors[color_index]`;
`none` stands for an out-of-range read. -/
def PlotClusters_color (key : Nat) : Option String :=
  let color_index := key % colors.length
  colors[color_index]?

/-- Body of the grouping loop (lines 60-64, repeated at 77-81, 99-103, 121-125):
`cluster_idx = assignments[i]`, then the two `push_back`s. An out-of-range read of
`assignments` gives `none`. -/
def groupBody {α : Type} (inputs : Mat α) (assignments : List Nat)
    (plot_clusters : Clusters α) (i : Nat) : Option (Clusters α) :=
  match assignments[i]? with
  | none => none
  | some cluster_idx =>
    let pc := modifyAt plot_clusters cluster_idx (fun p => (p.1 ++ [inputs.elem 0 i], p.2))
    some (modifyAt pc cluster_idx (fun p => (p.1, p.2 ++ [inputs.elem 1 i])))

/-- The grouping loop `for (size_t i = 0; i != inputs.n_cols; ++i)` starting from the
empty map. -/
def groupLoop {α : Type} (inputs : Mat α) (assignments : List Nat) : Option (Clusters α) :=
  (List.range inputs.n_cols).foldlM (groupBody inputs assignments) []

/-- Routine `kmeanClustering`; `KMeans_Cluster` stands for
`KMeans<>().Cluster(inputs, num_clusters, assignments)`. -/
def kmeanClustering {α : Type} (KMeans_Cluster : Mat α → Nat → Option (List Nat))
    (inputs : Mat α) (num_clusters : Nat) (name : String) : Option (PlotCall α) :=
  match KMeans_Cluster inputs num_clusters with
  | none => none
  | some assignments =>
    match groupLoop inputs assignments with
    | none => none
    | some plot_clusters => some ⟨plot_clusters, "K-Means", name ++ "-kmeans.png"⟩

/-- Routine `DBScanClustering`; `DBSCAN_Cluster` stands for
`DBSCAN<>(0.1, 15).Cluster(inputs, assignments)`. -/
def DBScanClustering {α : Type} (DBSCAN_Cluster : Mat α → Option (List Nat))
    (inputs : Mat α) (name : String) : Option (PlotCall α) :=
  match DBSCAN_Cluster inputs with
  | none => none
  | some assignments =>
    match groupLoop inputs assignments with
    | none => none
    | some plot_clusters => some ⟨plot_clusters, "DBSCAN", name ++ "-dbscan.png"⟩

/-- Routine `DMeanShiftClustering`; `MeanShift_Cluster` stands for the radius
estimation followed by `meanshift.Cluster(inputs, assignments, centroids)`. -/
def DMeanShiftClustering {α : Type} (MeanShift_Cluster : Mat α → Option (List Nat))
    (inputs : Mat α) (name : String) : Option (PlotCall α) :=
  match MeanShift_Cluster inputs with
  | none => none
  | some assignments =>
    match groupLoop inputs assignments with
    | none => none
    | some plot_clusters => some ⟨plot_clusters, "Mean Shift", name ++ "-meanshift.png"⟩

/-- Routine `GMMClustering`; `GMM_Classify` stands for building `GMM(num_clusters, 2)`,
training it and `gmm.Classify(inputs, assignments)`. -/
def GMMClustering {α : Type} (GMM_Classify : Mat α → Nat → Option (List Nat))
    (inputs : Mat α) (num_clusters : Nat) (name : String) : Option (PlotCall α) :=
  match GMM_Classify inputs num_clusters with
  | none => none
  | some assignments =>
    match groupLoop inputs assignments with
    | none => none
    | some plot_clusters => some ⟨plot_clusters, "GMM", name ++ "-gmm.png"⟩

/-- Invocations of the clustering routines made by `main`, with their arguments. -/
inductive Invocation (α : Type) where
  | kmeanClustering (inputs : Mat α) (num_clusters : Nat) (name : String)
  | DBScanClustering (inputs : Mat α) (name : String)
  | DMeanShiftClustering (inputs : Mat α) (name : String)
  | GMMClustering (inputs : Mat α) (num_clusters : Nat) (name : String)

/-- Dataset name an invocation was made with. -/
def Invocation.name {α : Type} : Invocation α → String
  | .kmeanClustering _ _ name => name
  | .DBScanClustering _ name => name
  | .DMeanShiftClustering _ name => name
  | .GMMClustering _ _ name => name

/-- Cluster count handed to the routine, for the routines that take one. -/
def Invocation.num_clusters? {α : Type} : Invocation α → Option Nat
  | .kmeanClustering _ k _ => some k
  | .DBScanClustering _ _ => none
  | .DMeanShiftClustering _ _ => none
  | .GMMClustering _ k _ => some k

/-- Sample matrix handed to the routine. -/
def Invocation.inputs {α : Type} : Invocation α → Mat α
  | .kmeanClustering inputs _ _ => inputs
  | .DBScanClustering inputs _ => inputs
  | .DMeanShiftClustering inputs _ => inputs
  | .GMMClustering inputs _ _ => inputs

/-- Image file the invoked routine passes to `PlotClusters`. -/
def Invocation.file_name {α : Type} : Invocation α → String
  | .kmeanClustering _ _ name => name ++ "-kmeans.png"
  | .DBScanClustering _ name => name ++ "-dbscan.png"
  | .DMeanShiftClustering _ name => name ++ "-meanshift.png"
  | .GMMClustering _ _ name => name ++ "-gmm.png"

/-- External collaborators of `main`: the filesystem queries, `fs::path::operator/`,
the CSV loader `data::Load(file_path, dataset, info, true)` (samples are columns; row 0
is the index row and the last row the label row; `none` stands for a load that fails,
on which `data::Load` throws because its `fatal` argument is `true`), the two numeric
conversions (`arma::conv_to<arma::Row<size_t>>::from` and the `size_t` to `double`
conversion done by the `std::set<double>` range constructor) and the four library
engines called by the clustering routines (`none` stands for a call that throws). -/
structure World (α : Type) where
  fs_exists : String → Bool
  fs_is_directory : String → Bool
  path_join : String → String → String
  Load : String → Option (Mat α)
  conv_to_size_t : α → Nat
  size_t_to_double : Nat → α
  KMeans_Cluster : Mat α → Nat → Option (List Nat)
  DBSCAN_Cluster : Mat α → Option (List Nat)
  MeanShift_Cluster : Mat α → Option (List Nat)
  GMM_Classify : Mat α → Nat → Option (List Nat)

/-- Run of an invoked routine on the library engines of the world; `none` stands for a
routine that does not return (an engine call that throws, or an out-of-range read in the
grouping loop). -/
def Invocation.run {α : Type} (w : World α) : Invocation α → Option (PlotCall α)
  | .kmeanClustering inputs num_clusters name =>
    mlpack.kmeanClustering w.KMeans_Cluster inputs num_clusters name
  | .DBScanClustering inputs name => mlpack.DBScanClustering w.DBSCAN_Cluster inputs name
  | .DMeanShiftClustering inputs name =>
    mlpack.DMeanShiftClustering w.MeanShift_Cluster inputs name
  | .GMMClustering inputs num_clusters name =>
    mlpack.GMMClustering w.GMM_Classify inputs num_clusters name

/-- The matrix left when row `row_num` is removed. -/
def removeRow {α : Type} (m : Mat α) (row_num : Nat) : Mat α :=
  ⟨m.n_rows - 1, m.n_cols, fun r c => if r < row_num then m.elem r c else m.elem (r + 1) c⟩

/-- Method `shed_row(row_num)` of `arma::mat`: removes one row; the index is
bounds-checked and `none` stands for the exception thrown when it is out of bounds. -/
def shed_row {α : Type} (m : Mat α) (row_num : Nat) : Option (Mat α) :=
  if row_num < m.n_rows then some (removeRow m row_num) else none

/-- Label row as read by `main` (line 154): the last row of the loaded matrix,
converted to `size_t`. -/
def main_labels {α : Type} (w : World α) (dataset : Mat α) : List Nat :=
  (List.range dataset.n_cols).map (fun j => w.conv_to_size_t (dataset.elem (dataset.n_rows - 1) j))

/-- Cluster count computed by `main` (lines 162-165) from the `size_t` labels, through
`std::set<double>`. -/
def main_num_clusters {α : Type} [DecidableEq α] (w : World α) (labels : List Nat) : Nat :=
  select_num_clusters (labels.map w.size_t_to_double)

/-- The routine calls of lines 172-176, made one after the other: the invocations made,
in order, and whether all of them returned. An invocation that does not return is the
last one made. -/
def run_calls {α : Type} (w : World α) : List (Invocation α) → List (Invocation α) × Bool
  | [] => ([], true)
  | inv :: rest =>
    match inv.run w with
    | none => ([inv], false)
    | some _ => (inv :: (run_calls w rest).1, (run_calls w rest).2)

/-- Body of the dataset loop of `main` for a file that exists (lines 149-176): the
routine invocations made, in order, and whether the body ran to its end (`false` stands
for an exception, which nothing catches). With no row loaded, `dataset.n_rows - 1` wraps
to `SIZE_MAX` on `size_t` and the bounds-checked `row()` throws; otherwise it is the
truncated subtraction used here. -/
def main_process {α : Type} [DecidableEq α] (w : World α) (file_path dataset_name : String) :
    List (Invocation α) × Bool :=
  match w.Load file_path with
  | none => ([], false)
  | some dataset =>
    if dataset.n_rows = 0 then ([], false)
    else
      let labels := main_labels w dataset
      match shed_row dataset (dataset.n_rows - 1) with
      | none => ([], false)
      | some dataset1 =>
        match shed_row dataset1 0 with
        | none => ([], false)
        | some dataset2 =>
          let num_clusters := main_num_clusters w labels
          run_calls w
            [ .kmeanClustering dataset2 num_clusters dataset_name,
              .DBScanClustering dataset2 dataset_name,
              .DMeanShiftClustering dataset2 dataset_name,
              .GMMClustering dataset2 num_clusters dataset_name ]

/-- Outcome of a run: the exit status returned by `main` (`none` when `main` is left by
an uncaught exception instead of a `return`) together with the routine invocations it
made, in order. -/
structure MainResult (α : Type) where
  status : Option Int
  calls : List (Invocation α)

/-- One pass of the dataset loop of `main` (lines 143-177) on the invocations made so far
and the flag telling whether the program is still running. -/
def main_step {α : Type} [DecidableEq α] (w : World α) (base_dir : String)
    (state : List (Invocation α) × Bool) (dataset_name : String) :
    List (Invocation α) × Bool :=
  if !state.2 then state
  else
    let file_path := w.path_join base_dir dataset_name
    if !w.fs_exists file_path then state
    else (state.1 ++ (main_process w file_path dataset_name).1,
      (main_process w file_path dataset_name).2)

/-- Function `main(argc, argv)`; `argv` holds the program name followed by the
arguments, so `argc = argv.length`. -/
def main {α : Type} [DecidableEq α] (w : World α) (argv : List String) : MainResult α :=
  if argv.length ≤ 1 then ⟨some 1, []⟩
  else
    let base_dir := argv.getD 1 ""
    if !w.fs_exists base_dir || !w.fs_is_directory base_dir then ⟨some 1, []⟩
    else
      let final := dataset_names.foldl (main_step w base_dir) ([], true)
      ⟨if final.2 then some 0 else none, final.1⟩

end mlpack

/-! ## `dlib-cluster.cpp` -/

namespace dlib

/-- Colour lookup of `PlotClusters`: `colors[cluster.first]`; `none` stands for an
out-of-range read. -/
def PlotClusters_color (key : Nat) : Option String :=
  colors[key]?

/-- Function `subm(m, r, c, nr, nc)`: the `nr x nc` block whose top-left corner is
`(r, c)`. -/
def subm {α : Type} (m : Mat α) (r c nr nc : Nat) : Mat α :=
  ⟨nr, nc, fun i j => m.elem (r + i) (c + j)⟩

/-- Element-wise difference of two matrices (`operator-`). -/
def Mat.sub {α : Type} [Sub α] (a b : Mat α) : Mat α :=
  ⟨a.n_rows, a.n_cols, fun i j => a.elem i j - b.elem i j⟩

/-- Expression `sum(squared(m))`. -/
def sum_squared {α : Type} [Add α] [Mul α] [Zero α] (m : Mat α) : α :=
  ((List.range m.n_rows).map
    (fun i => ((List.range m.n_cols).map (fun j => m.elem i j * m.elem i j)).sum)).sum

/-- Function `length(m) = sqrt(sum(squared(m)))`; the square root is a parameter. -/
def length {α : Type} [Add α] [Mul α] [Zero α] (sqrt : α → α) (m : Mat α) : α :=
  sqrt (sum_squared m)

/-- Assignment `m(r, c) = v`. -/
def Mat.set {α : Type} (m : Mat α) (r c : Nat) (v : α) : Mat α :=
  { m with elem := fun i j => if i = r ∧ j = c then v else m.elem i j }

/-- The distance between rows `r` and `c` as written in the source:
`length(subm(inputs, r, 0, 1, 2) - subm(inputs, c, 0, 1, 2))`. -/
def row_distance {α : Type} [Add α] [Sub α] [Mul α] [Zero α] (sqrt : α → α)
    (inputs : Mat α) (r c : Nat) : α :=
  length sqrt (Mat.sub (subm inputs r 0 1 2) (subm inputs c 0 1 2))

/-- Matrix `dist` of `hierachicalClustering` (lines 54-59): `matrix<double>
dist(inputs.nr(), inputs.nr())`, whose storage starts with indeterminate content
`uninit`, filled by the two nested loops. -/
def hierachicalClustering_dist {α : Type} [Add α] [Sub α] [Mul α] [Zero α]
    (sqrt : α → α) (uninit : Nat → Nat → α) (inputs : Mat α) : Mat α :=
  let dist : Mat α := ⟨inputs.nr, inputs.nr, uninit⟩
  (List.range dist.nr).foldl
    (fun dist r =>
      (List.range dist.nc).foldl (fun dist c => Mat.set dist r c (row_distance sqrt inputs r c))
        dist)
    dist

/-- Body of the grouping loop (lines 64-68, repeated at 87-91 and 112-116):
`cluster_idx = clusters[i]`, then the two `push_back`s. An out-of-range read of
`clusters` gives `none`. -/
def groupBody {α : Type} (inputs : Mat α) (clusters : List Nat)
    (plot_clusters : Clusters α) (i : Nat) : Option (Clusters α) :=
  match clusters[i]? with
  | none => none
  | some cluster_idx =>
    let pc := modifyAt plot_clusters cluster_idx (fun p => (p.1 ++ [inputs.elem i 0], p.2))
    some (modifyAt pc cluster_idx (fun p => (p.1, p.2 ++ [inputs.elem i 1])))

/-- The grouping loop `for (long i = 0; i != inputs.nr(); i++)` starting from the empty
map. -/
def groupLoop {α : Type} (inputs : Mat α) (clusters : List Nat) : Option (Clusters α) :=
  (List.range inputs.nr).foldlM (groupBody inputs clusters) []

/-- Routine `hierachicalClustering`; `bottom_up_cluster` stands for the library call
`bottom_up_cluster(dist, clusters, num_clusters)`. -/
def hierachicalClustering {α : Type} [Add α] [Sub α] [Mul α] [Zero α]
    (sqrt : α → α) (uninit : Nat → Nat → α)
    (bottom_up_cluster : Mat α → Nat → Option (List Nat))
    (inputs : Mat α) (num_clusters : Nat) (name : String) : Option (PlotCall α) :=
  let dist := hierachicalClustering_dist sqrt uninit inputs
  match bottom_up_cluster dist num_clusters with
  | none => none
  | some clusters =>
    match groupLoop inputs clusters with
    | none => none
    | some plot_clusters =>
      some ⟨plot_clusters, "Agglomerative clustering", name ++ "-aggl.png"⟩

/-- Edge list of `graphClustering` (lines 75-80); an edge is recorded by the arguments
given to the `sample_pair` constructor. -/
def graphClustering_edges {α : Type} [Add α] [Sub α] [Mul α] [Zero α]
    (sqrt : α → α) (inputs : Mat α) : List (Nat × Nat × α) :=
  (List.range inputs.nr).foldl
    (fun edges i =>
      (List.range inputs.nr).foldl (fun edges j => edges ++ [(i, j, row_distance sqrt inputs i j)])
        edges)
    []

/-- Routine `graphClustering`; `chinese_whispers` stands for the library call
`chinese_whispers(edges, clusters)`. -/
def graphClustering {α : Type} [Add α] [Sub α] [Mul α] [Zero α]
    (sqrt : α → α) (chinese_whispers : List (Nat × Nat × α) → Option (List Nat))
    (inputs : Mat α) (name : String) : Option (PlotCall α) :=
  match chinese_whispers (graphClustering_edges sqrt inputs) with
  | none => none
  | some clusters =>
    match groupLoop inputs clusters with
    | none => none
    | some plot_clusters => some ⟨plot_clusters, "Graph clustering", name ++ "-graph.png"⟩

/-- Edge list of `DoGraphNewmanClustering` (lines 98-105): only pairs closer than `0.5`
are kept. -/
def DoGraphNewmanClustering_edges {α : Type} [LinearOrderedField α]
    (sqrt : α → α) (inputs : Mat α) : List (Nat × Nat × α) :=
  (List.range inputs.nr).foldl
    (fun edges i =>
      (List.range inputs.nr).foldl
        (fun edges j =>
          let dist := row_distance sqrt inputs i j
          if dist < 1 / 2 then edges ++ [(i, j, dist)] else edges)
        edges)
    []

/-- Routine `DoGraphNewmanClustering`; `newman_cluster` stands for
`remove_duplicate_edges(edges)` followed by `newman_cluster(edges, clusters)`. -/
def DoGraphNewmanClustering {α : Type} [LinearOrderedField α]
    (sqrt : α → α) (newman_cluster : List (Nat × Nat × α) → Option (List Nat))
    (inputs : Mat α) (name : String) : Option (PlotCall α) :=
  match newman_cluster (DoGraphNewmanClustering_edges sqrt inputs) with
  | none => none
  | some clusters =>
    match groupLoop inputs clusters with
    | none => none
    | some plot_clusters =>
      some ⟨plot_clusters, "Graph Newman clustering", name ++ "-graph-newman.png"⟩

/-- Vector `samples` of `kmeanClustering` (lines 130-134): sample `i` is
`trans(subm(inputs, i, 0, 1, 2))`, kept as the pair of its two entries. -/
def kmeanClustering_samples {α : Type} (inputs : Mat α) : List (α × α) :=
  (List.range inputs.nr).map
    (fun i => ((subm inputs i 0 1 2).elem 0 0, (subm inputs i 0 1 2).elem 0 1))

/-- Body of the grouping loop of `kmeanClustering` (lines 144-148):
`cluster_idx = kmeans(samples[i])`. -/
def kmeanBody {α : Type} (inputs : Mat α) (samples : List (α × α)) (kmeans : α × α → Nat)
    (plot_clusters : Clusters α) (i : Nat) : Option (Clusters α) :=
  match samples[i]? with
  | none => none
  | some sample =>
    let cluster_idx := kmeans sample
    let pc := modifyAt plot_clusters cluster_idx (fun p => (p.1 ++ [inputs.elem i 0], p.2))
    some (modifyAt pc cluster_idx (fun p => (p.1, p.2 ++ [inputs.elem i 1])))

/-- The grouping loop of `kmeanClustering`, `for (long i = 0; i != inputs.nr(); i++)`,
starting from the empty map. -/
def kmeanLoop {α : Type} (inputs : Mat α) (samples : List (α × α)) (kmeans : α × α → Nat) :
    Option (Clusters α) :=
  (List.range inputs.nr).foldlM (kmeanBody inputs samples kmeans) []

/-- Routine `kmeanClustering`; `kkmeans_train` stands for `pick_initial_centers`,
`set_number_of_centers` and `train`, and returns the trained decision function
`kmeans(sample)`. -/
def kmeanClustering {α : Type}
    (kkmeans_train : List (α × α) → Nat → Option (α × α → Nat))
    (inputs : Mat α) (num_clusters : Nat) (name : String) : Option (PlotCall α) :=
  let samples := kmeanClustering_samples inputs
  match kkmeans_train samples num_clusters with
  | none => none
  | some kmeans =>
    match kmeanLoop inputs samples kmeans with
    | none => none
    | some plot_clusters => some ⟨plot_clusters, "K-Means", name ++ "-kmeans.png"⟩

/-- Invocations of the clustering routines made by `main`, with their arguments. -/
inductive Invocation (α : Type) where
  | hierachicalClustering (inputs : Mat α) (num_clusters : Nat) (name : String)
  | graphClustering (inputs : Mat α) (name : String)
  | DoGraphNewmanClustering (inputs : Mat α) (name : String)
  | kmeanClustering (inputs : Mat α) (num_clusters : Nat) (name : String)

/-- Dataset name an invocation was made with. -/
def Invocation.name {α : Type} : Invocation α → String
  | .hierachicalClustering _ _ name => name
  | .graphClustering _ name => name
  | .DoGraphNewmanClustering _ name => name
  | .kmeanClustering _ _ name => name

/-- Cluster count handed to the routine, for the routines that take one. -/
def Invocation.num_clusters? {α : Type} : Invocation α → Option Nat
  | .hierachicalClustering _ k _ => some k
  | .graphClustering _ _ => none
  | .DoGraphNewmanClustering _ _ => none
  | .kmeanClustering _ k _ => some k

/-- Sample matrix handed to the routine. -/
def Invocation.inputs {α : Type} : Invocation α → Mat α
  | .hierachicalClustering inputs _ _ => inputs
  | .graphClustering inputs _ => inputs
  | .DoGraphNewmanClustering inputs _ => inputs
  | .kmeanClustering inputs _ _ => inputs

/-- Image file the invoked routine passes to `PlotClusters`. -/
def Invocation.file_name {α : Type} : Invocation α → String
  | .hierachicalClustering _ _ name => name ++ "-aggl.png"
  | .graphClustering _ name => name ++ "-graph.png"
  | .DoGraphNewmanClustering _ name => name ++ "-graph-newman.png"
  | .kmeanClustering _ _ name => name ++ "-kmeans.png"

/-- External collaborators of `main`: `fs::exists`, `fs::path::operator/` and the
matrix reader `file >> data` (samples are rows). -/
structure World (α : Type) where
  fs_exists : String → Bool
  path_join : String → String → String
  read_matrix : String → Mat α

/-- Column of labels read by `main` (line 169): `subm(data, 0, 3, data.nr(), 1)`,
iterated from `begin()` to `end()`. -/
def main_labels {α : Type} (data : Mat α) : List α :=
  let labels := subm data 0 3 data.nr 1
  (List.range labels.nr).map (fun i => labels.elem i 0)

/-- Body of the dataset loop of `main` for a file that exists (lines 164-183). -/
def main_process {α : Type} [DecidableEq α] (w : World α) (dataset_path dataset : String) :
    List (Invocation α) :=
  let data := w.read_matrix dataset_path
  let inputs := subm data 0 1 data.nr 2
  let labels := main_labels data
  let num_clusters := select_num_clusters labels
  [ .hierachicalClustering inputs num_clusters dataset ]

/-- Exit status of a run together with the routine invocations it made, in order. -/
structure MainResult (α : Type) where
  status : Int
  calls : List (Invocation α)

/-- Function `main(argc, argv)`; `argv` holds the program name followed by the
arguments, so `argc = argv.length`. The routine invocations are recorded, not run. -/
def main {α : Type} [DecidableEq α] (w : World α) (argv : List String) : MainResult α :=
  if argv.length < 2 then ⟨1, []⟩
  else
    let base_dir := argv.getD 1 ""
    ⟨0, dataset_names.foldl
      (fun calls dataset =>
        let dataset_path := w.path_join base_dir dataset
        if w.fs_exists dataset_path then calls ++ main_process w dataset_path dataset
        else calls)
      []⟩

end dlib

/-! ## Specification vocabulary for the grouping loops -/

/-- One iteration of a grouping loop in general form: `a i` is the cluster index read
for sample `i` (`none` for an out-of-range read), `f0 i` and `f1 i` its two features. -/
def groupStep {α : Type} (f0 f1 : Nat → α) (a : Nat → Option Nat)
    (m : Clusters α) (i : Nat) : Option (Clusters α) :=
  match a i with
  | none => none
  | some c =>
    some (modifyAt (modifyAt m c (fun p => (p.1 ++ [f0 i], p.2))) c (fun p => (p.1, p.2 ++ [f1 i])))

/-- Indices `i < n` whose read `a i` is cluster `c`, in increasing order. -/
def indicesOf (n : Nat) (a : Nat → Option Nat) (c : Nat) : List Nat :=
  (List.range n).filter (fun i => a i = some c)

/-- The samples of an assignment vector `a` that are assigned to cluster `c`: the
indices `i` with `a[i] = c`, in increasing order. -/
def members (a : List Nat) (c : Nat) : List Nat :=
  (List.range a.length).filter (fun i => a[i]? = some c)

/-- Total number of points stored in a cluster map (sizes of the x-coordinate lists). -/
def pointCount {α : Type} (m : Clusters α) : Nat :=
  (m.map (fun e => e.2.1.length)).sum

/-- The cluster map `m` groups the samples by the assignment vector `a`: no key is
stored twice, the keys are exactly the values occurring in `a`, and the entry of key `c`
holds the feature-0 values `f0 i` and the feature-1 values `f1 i` of exactly the samples
`i` with `a[i] = c`, in increasing order of `i`. -/
def IsGroupingOf {α : Type} (f0 f1 : Nat → α) (a : List Nat) (m : Clusters α) : Prop :=
  (keys m).Nodup ∧ (∀ c, c ∈ keys m ↔ c ∈ a) ∧
    ∀ c p, (c, p) ∈ m → p.1 = (members a c).map f0 ∧ p.2 = (members a c).map f1

/-- Every sample index below `n` contributes exactly one point to exactly one cluster of
`m`: the point counts of the clusters sum to `n`, the two coordinate lists of every
cluster have the same length, and for every index `i < n` there is exactly one key `c`
whose entry is built from an index list (`members a c`) in which `i` occurs, and it
occurs there once. -/
def IsTotalPlot {α : Type} (f0 f1 : Nat → α) (n : Nat) (a : List Nat) (m : Clusters α) :
    Prop :=
  pointCount m = n ∧ (∀ c p, (c, p) ∈ m → p.1.length = p.2.length) ∧
    ∀ i, i < n → ∃! c, (members a c).count i = 1 ∧
      ∃ p, (c, p) ∈ m ∧ p.1 = (members a c).map f0 ∧ p.2 = (members a c).map f1

namespace KMeansSpec

/-- Modelled from the spec: the k-means engine is absent from the sources; a `Sample`
is a fixed-length ordered sequence of numeric features (section 3). -/
abbrev Sample := List ℚ

/-- Modelled from the spec: the k-means engine is absent from the sources; the error
that stops a run before any iteration (section 7). -/
inductive Error where
  | InvalidInput
  deriving DecidableEq

/-- Modelled from the spec: the k-means engine is absent from the sources; the states of
the convergence controller (section 4.5). -/
inductive Status where
  | Running
  | Converged
  | MaxIterationsReached
  deriving DecidableEq

/-- Modelled from the spec: the k-means engine is absent from the sources; the
configuration options `tolerance` and `max_iterations` (section 6). The distance metric
is `euclidean`, the empty-cluster policy is `keep_previous`, and the outcome of the
centroid initializer is an argument of the run. -/
structure Config where
  tolerance : ℚ
  max_iterations : Nat

/-- Modelled from the spec: the k-means engine is absent from the sources; a
`ClusterState` is the current centroids plus the current assignment (section 3),
together with the controller status and the number of iterations done. -/
structure ClusterState where
  centroids : List Sample
  assignment : List Nat
  iterations : Nat
  status : Status

/-- Modelled from the spec: the k-means engine is absent from the sources; the square of
the Euclidean distance of section 4.1. -/
def sqDist (a b : Sample) : ℚ :=
  (List.zipWith (fun x y => (x - y) * (x - y)) a b).sum

/-- Modelled from the spec: the k-means engine is absent from the sources; scan of the
centroids from index `j` on, keeping the best index so far; a later centroid replaces
it only when strictly closer, so ties go to the lowest index (section 4.3). -/
def nearestFrom (s : Sample) : List Sample → Nat → Nat → ℚ → Nat
  | [], _, best, _ => best
  | c :: rest, j, best, bestDist =>
    if sqDist s c < bestDist then nearestFrom s rest (j + 1) j (sqDist s c)
    else nearestFrom s rest (j + 1) best bestDist

/-- Modelled from the spec: the k-means engine is absent from the sources; the argmin
index over the centroids of the distance to sample `s` (section 4.3). -/
def nearest (centroids : List Sample) (s : Sample) : Nat :=
  match centroids with
  | [] => 0
  | c :: rest => nearestFrom s rest 1 0 (sqDist s c)

/-- Modelled from the spec: the k-means engine is absent from the sources; the
assignment step (section 4.3): every sample goes to its nearest centroid. -/
def assignStep (centroids : List Sample) (data : List Sample) : List Nat :=
  data.map (nearest centroids)

/-- Modelled from the spec: the k-means engine is absent from the sources; the
coordinate-wise mean of a list of points of dimension `dim` (section 4.4). -/
def mean (pts : List Sample) (dim : Nat) : Sample :=
  (List.range dim).map (fun d => (pts.map (fun p => p.getD d 0)).sum / (pts.length : ℚ))

/-- Modelled from the spec: the k-means engine is absent from the sources; the samples
currently assigned to cluster `j`. -/
def clusterMembers (data : List Sample) (assignment : List Nat) (j : Nat) : List Sample :=
  ((data.zip assignment).filter (fun e => e.2 = j)).map Prod.fst

/-- Modelled from the spec: the k-means engine is absent from the sources; the update
step (section 4.4): every centroid becomes the mean of the samples assigned to it, and a
cluster without samples retains its previous centroid (policy `keep_previous`). -/
def updateStep (data : List Sample) (assignment : List Nat) (centroids : List Sample) :
    List Sample :=
  (List.range centroids.length).map (fun j =>
    let previous := centroids.getD j []
    match clusterMembers data assignment j with
    | [] => previous
    | p :: pts => mean (p :: pts) previous.length)

/-- Modelled from the spec: the k-means engine is absent from the sources; the test of
the transition Running to Converged (section 4.5): the largest centroid displacement is
below the tolerance, compared on squares. -/
def withinTolerance (tolerance : ℚ) (old new : List Sample) : Bool :=
  decide (0 < tolerance) &&
    (List.zipWith sqDist old new).all (fun d => decide (d < tolerance * tolerance))

/-- Modelled from the spec: the k-means engine is absent from the sources; the
convergence controller (section 4.5) with `remaining` iterations left before the cap:
one iteration is an assignment step followed by an update step. -/
def iterate (cfg : Config) (data : List Sample) : Nat → ClusterState → ClusterState
  | 0, st => { st with status := Status.MaxIterationsReached }
  | remaining + 1, st =>
    let assignment := assignStep st.centroids data
    let centroids := updateStep data assignment st.centroids
    if withinTolerance cfg.tolerance st.centroids centroids then
      ⟨centroids, assignment, st.iterations + 1, Status.Converged⟩
    else
      iterate cfg data remaining ⟨centroids, assignment, st.iterations + 1, Status.Running⟩

/-- Modelled from the spec: the k-means engine is absent from the sources; the input
check of section 7: `InvalidInput` for an empty dataset, `k < 1`, `k > n` or
inconsistent feature dimensionality (of the samples and of the initial centroids). -/
def validInput (data : List Sample) (k : Nat) (init : List Sample) : Bool :=
  !data.isEmpty && decide (1 ≤ k) && decide (k ≤ data.length) &&
    (data ++ init).all (fun s => decide (s.length = (data.headD []).length))

/-- Modelled from the spec: the k-means engine is absent from the sources; one
clustering run (sections 4.2 to 4.5 and 7) from the initial centroids `init` returned by
the centroid initializer. -/
def run (cfg : Config) (data : List Sample) (k : Nat) (init : List Sample) :
    Except Error ClusterState :=
  if validInput data k init then
    Except.ok (iterate cfg data cfg.max_iterations
      ⟨init, assignStep init data, 0, Status.Running⟩)
  else Except.error Error.InvalidInput

/-- The samples handed to the engine by the mlpack `kmeanClustering`: the columns of
`inputs`. -/
def columnSamples (inputs : Mat ℚ) : List Sample :=
  (List.range inputs.n_cols).map
    (fun i => (List.range inputs.n_rows).map (fun r => inputs.elem r i))

/-- Modelled from the spec: the k-means engine is absent from the sources; the call
`KMeans<>().Cluster(inputs, num_clusters, assignments)` as a run of the specified core,
returning the final assignment; an `InvalidInput` run returns nothing. -/
def KMeans_Cluster (cfg : Config) (init : List Sample) (inputs : Mat ℚ)
    (num_clusters : Nat) : Option (List Nat) :=
  match run cfg (columnSamples inputs) num_clusters init with
  | Except.ok st => some st.assignment
  | Except.error _ => none

/-- Modelled from the spec: the k-means engine is absent from the sources; the calls
`pick_initial_centers`, `set_number_of_centers` and `train` of the dlib
`kmeanClustering` as a run of the specified core; the decision function `kmeans(sample)`
is the index of the nearest final centroid. -/
def kkmeans_train (cfg : Config) (init : List Sample) (samples : List (ℚ × ℚ))
    (num_clusters : Nat) : Option (ℚ × ℚ → Nat) :=
  match run cfg (samples.map (fun s => [s.1, s.2])) num_clusters init with
  | Except.ok st => some (fun s => nearest st.centroids [s.1, s.2])
  | Except.error _ => none

end KMeansSpec

/-! ## Concrete inputs used to exercise the statements -/

/-- Three two-feature samples stored as columns (the mlpack layout):
`(0, 10)`, `(1, 11)`, `(2, 12)`. -/
def exampleColumns : Mat ℚ := ⟨2, 3, fun r c => 10 * (r : ℚ) + (c : ℚ)⟩

/-- Three two-feature samples stored as rows (the dlib layout):
`(0, 1)`, `(10, 11)`, `(20, 21)`. -/
def exampleRows : Mat ℚ := ⟨3, 2, fun r c => 10 * (r : ℚ) + (c : ℚ)⟩

/-- Four samples as loaded by the mlpack program (samples are columns): row 0 is the
index `0, 1, 2, 3`, rows 1 and 2 are the two features and row 3 holds the labels
`0, 1, 0, 1`. -/
def exampleDataset : Mat ℚ :=
  ⟨4, 4, fun r c => if r = 0 then (c : ℚ) else if r = 3 then ((c % 2 : Nat) : ℚ)
    else 10 * (r : ℚ) + (c : ℚ)⟩

/-- A directory `data` that holds `dataset0.csv` and `dataset3.csv` only; every file
loads as `exampleDataset`; the engines put all samples into cluster 0. -/
def exampleWorld : mlpack.World ℚ where
  fs_exists := fun path => path = "data" || path = "data/dataset0.csv" || path = "data/dataset3.csv"
  fs_is_directory := fun path => path = "data"
  path_join := fun base name => base ++ "/" ++ name
  Load := fun _ => some exampleDataset
  conv_to_size_t := fun x => ⌊x⌋.toNat
  size_t_to_double := fun n => (n : ℚ)
  KMeans_Cluster := fun inputs _ => some (List.replicate inputs.n_cols 0)
  DBSCAN_Cluster := fun inputs => some (List.replicate inputs.n_cols 0)
  MeanShift_Cluster := fun inputs => some (List.replicate inputs.n_cols 0)
  GMM_Classify := fun inputs _ => some (List.replicate inputs.n_cols 0)

/-- A single sample with label 0 (rows: index, feature 0, feature 1, label). -/
def oneSampleDataset : Mat ℚ :=
  ⟨4, 1, fun r _ => if r = 1 then 1 / 2 else if r = 2 then 3 / 2 else 0⟩

/-- A world whose files load as `oneSampleDataset`. -/
def oneSampleWorld : mlpack.World ℚ :=
  { exampleWorld with Load := fun _ => some oneSampleDataset }

/-- Two samples with the labels `1/5` and `7/10` (last row), which the conversion to
`size_t` both sends to 0. -/
def fractionalLabelDataset : Mat ℚ :=
  ⟨4, 2, fun r c => if r = 3 then (if c = 0 then 1 / 5 else 7 / 10) else 0⟩

/-- A world whose files load as `fractionalLabelDataset`. -/
def fractionalLabelWorld : mlpack.World ℚ :=
  { exampleWorld with Load := fun _ => some fractionalLabelDataset }

/-- The same directory seen by the dlib program; every file reads as four rows
`index, feature 0, feature 1, label` with the labels `0, 1, 0, 1`. -/
def exampleDlibWorld : dlib.World ℚ where
  fs_exists := fun path => path = "data" || path = "data/dataset0.csv" || path = "data/dataset3.csv"
  path_join := fun base name => base ++ "/" ++ name
  read_matrix := fun _ => ⟨4, 4, fun r c => if c = 0 then (r : ℚ)
    else if c = 3 then ((r % 2 : Nat) : ℚ) else 10 * (r : ℚ) + (c : ℚ)⟩

/-! ## Association-list facts -/

theorem lookup_modifyAt {α : Type} (m : Clusters α) (k c : Nat)
    (f : PointCoords α → PointCoords α) :
    lookup (modifyAt m k f) c =
      if k = c then some (f ((lookup m k).getD ([], []))) else lookup m c := by
  induction m with
  | nil => simp [modifyAt, lookup]
  | cons e rest ih =>
    obtain ⟨k', p⟩ := e
    by_cases h : k' = k
    · subst h
      by_cases hc : k' = c <;> simp [modifyAt, lookup, hc]
    · by_cases hc : k' = c
      · subst hc
        have h2 : ¬ k = k' := fun e => h e.symm
        simp [modifyAt, lookup, h, h2]
      · simp [modifyAt, lookup, h, hc, ih]

theorem keys_modifyAt {α : Type} (m : Clusters α) (k : Nat)
    (f : PointCoords α → PointCoords α) :
    keys (modifyAt m k f) = if k ∈ keys m then keys m else keys m ++ [k] := by
  induction m with
  | nil => simp [modifyAt, keys]
  | cons e rest ih =>
    obtain ⟨k', p⟩ := e
    by_cases h : k' = k
    · subst h
      simp [modifyAt, keys]
    · have h2 : ¬ k = k' := fun e => h e.symm
      simp only [keys] at ih
      by_cases hk : k ∈ List.map Prod.fst rest
      · simp [modifyAt, keys, h, h2, hk, ih]
      · simp [modifyAt, keys, h, h2, hk, ih]

theorem mem_keys_iff_lookup {α : Type} (m : Clusters α) (c : Nat) :
    c ∈ keys m ↔ lookup m c ≠ none := by
  induction m with
  | nil => simp [keys, lookup]
  | cons e rest ih =>
    obtain ⟨k', p⟩ := e
    simp only [keys] at ih
    by_cases h : k' = c
    · simp [keys, lookup, h]
    · have h2 : ¬ c = k' := fun e => h e.symm
      simp [keys, lookup, h, h2, ih]

theorem lookup_of_mem {α : Type} (m : Clusters α) (hnd : (keys m).Nodup) (c : Nat)
    (p : PointCoords α) (hmem : (c, p) ∈ m) : lookup m c = some p := by
  induction m with
  | nil => simp at hmem
  | cons e rest ih =>
    obtain ⟨k', q⟩ := e
    simp only [keys, List.map_cons, List.nodup_cons] at hnd
    rcases List.mem_cons.mp hmem with h | h
    · cases h
      simp [lookup]
    · have hne : k' ≠ c := by
        rintro rfl
        exact hnd.1 (List.mem_map.mpr ⟨(k', p), h, rfl⟩)
      simp [lookup, hne, ih hnd.2 h]

theorem mem_of_lookup {α : Type} (m : Clusters α) (c : Nat) (p : PointCoords α)
    (h : lookup m c = some p) : (c, p) ∈ m := by
  induction m with
  | nil => simp [lookup] at h
  | cons e rest ih =>
    obtain ⟨k', q⟩ := e
    by_cases hk : k' = c
    · subst hk
      simp [lookup] at h
      simp [h]
    · simp [lookup, hk] at h
      exact List.mem_cons_of_mem _ (ih h)

theorem nodup_keys_modifyAt {α : Type} (m : Clusters α) (k : Nat)
    (f : PointCoords α → PointCoords α) (h : (keys m).Nodup) :
    (keys (modifyAt m k f)).Nodup := by
  rw [keys_modifyAt]
  by_cases hk : k ∈ keys m
  · simpa [hk] using h
  · simp only [hk, if_false]
    exact List.Nodup.append h (List.nodup_singleton k) (by simpa using hk)

theorem pointCount_push_first {α : Type} (m : Clusters α) (k : Nat) (x : α) :
    pointCount (modifyAt m k (fun p => (p.1 ++ [x], p.2))) = pointCount m + 1 := by
  induction m with
  | nil => simp [modifyAt, pointCount]
  | cons e rest ih =>
    obtain ⟨k', p⟩ := e
    simp only [pointCount] at ih
    by_cases h : k' = k
    · simp [modifyAt, pointCount, h]; omega
    · simp [modifyAt, pointCount, h, ih]; omega

theorem pointCount_push_second {α : Type} (m : Clusters α) (k : Nat) (y : α) :
    pointCount (modifyAt m k (fun p => (p.1, p.2 ++ [y]))) = pointCount m := by
  induction m with
  | nil => simp [modifyAt, pointCount]
  | cons e rest ih =>
    obtain ⟨k', p⟩ := e
    simp only [pointCount] at ih
    by_cases h : k' = k
    · simp [modifyAt, pointCount, h]
    · simp [modifyAt, pointCount, h, ih]

theorem indicesOf_succ (n : Nat) (a : Nat → Option Nat) (c : Nat) :
    indicesOf (n + 1) a c = indicesOf n a c ++ (if a n = some c then [n] else []) := by
  simp only [indicesOf, List.range_succ, List.filter_append]
  by_cases h : a n = some c <;> simp [List.filter, h]

/-- Loop invariant of the grouping loops, in general form. -/
theorem groupFold_spec {α : Type} (f0 f1 : Nat → α) (a : Nat → Option Nat) (n : Nat)
    (h : ∀ i, i < n → ∃ c, a i = some c) :
    ∃ m, (List.range n).foldlM (groupStep f0 f1 a) [] = some m ∧ (keys m).Nodup ∧
      pointCount m = n ∧
      ∀ c, lookup m c =
        if indicesOf n a c = [] then none
        else some ((indicesOf n a c).map f0, (indicesOf n a c).map f1) := by
  induction n with
  | zero => exact ⟨[], by simp [keys, pointCount, lookup, indicesOf]⟩
  | succ n ih =>
    obtain ⟨m, hm, hnd, hcount, hlook⟩ := ih (fun i hi => h i (Nat.lt_succ_of_lt hi))
    obtain ⟨c, hc⟩ := h n (Nat.lt_succ_self n)
    refine ⟨modifyAt (modifyAt m c (fun p => (p.1 ++ [f0 n], p.2))) c
      (fun p => (p.1, p.2 ++ [f1 n])), ?_, ?_, ?_, ?_⟩
    · rw [List.range_succ, List.foldlM_append, hm]
      simp [groupStep, hc]
    · exact nodup_keys_modifyAt _ _ _ (nodup_keys_modifyAt _ _ _ hnd)
    · rw [pointCount_push_second, pointCount_push_first, hcount]
    · intro c'
      simp only [lookup_modifyAt]
      rw [indicesOf_succ, hc]
      by_cases hcc : c = c'
      · subst hcc
        rw [hlook c]
        by_cases he : indicesOf n a c = [] <;> simp [he]
      · have : ¬ (some c = some c') := fun e => hcc (Option.some.inj e)
        simp [hcc, this, hlook c']

theorem members_eq_indicesOf (a : List Nat) (c : Nat) :
    members a c = indicesOf a.length (fun i => a[i]?) c := rfl

theorem mem_members (a : List Nat) (c i : Nat) : i ∈ members a c ↔ a[i]? = some c := by
  simp only [members, List.mem_filter, List.mem_range, decide_eq_true_eq]
  constructor
  · exact fun h => h.2
  · intro h
    refine ⟨?_, h⟩
    by_contra hlt
    rw [List.getElem?_eq_none (Nat.le_of_not_lt hlt)] at h
    cases h

theorem members_eq_nil_iff (a : List Nat) (c : Nat) : members a c = [] ↔ c ∉ a := by
  rw [List.eq_nil_iff_forall_not_mem]
  constructor
  · intro h hc
    obtain ⟨i, hi, rfl⟩ := List.getElem_of_mem hc
    exact h i ((mem_members a _ i).mpr (List.getElem?_eq_getElem hi))
  · intro h i hi
    exact h (List.getElem?_mem ((mem_members a c i).mp hi))

theorem nodup_members (a : List Nat) (c : Nat) : (members a c).Nodup :=
  List.Nodup.filter _ (List.nodup_range _)

/-- The general grouping loop over an assignment vector of the right length returns a
map that groups the samples by the vector. -/
theorem groupFold_grouping {α : Type} (f0 f1 : Nat → α) (a : List Nat) :
    ∃ m, (List.range a.length).foldlM (groupStep f0 f1 (fun i => a[i]?)) [] = some m ∧
      IsGroupingOf f0 f1 a m ∧ IsTotalPlot f0 f1 a.length a m ∧
      ∀ c p, (c, p) ∈ m → 0 < p.1.length := by
  obtain ⟨m, hm, hnd, hcount, hlook⟩ := groupFold_spec f0 f1 (fun i => a[i]?) a.length
    (fun i hi => ⟨a[i], List.getElem?_eq_getElem hi⟩)
  simp only [← members_eq_indicesOf] at hlook
  have hentry : ∀ c p, (c, p) ∈ m →
      members a c ≠ [] ∧ p.1 = (members a c).map f0 ∧ p.2 = (members a c).map f1 := by
    intro c p hp
    have h1 := lookup_of_mem m hnd c p hp
    rw [hlook c] at h1
    by_cases he : members a c = []
    · simp [he] at h1
    · simp only [he, if_false, Option.some.injEq] at h1
      subst h1
      exact ⟨he, rfl, rfl⟩
  refine ⟨m, hm, ⟨hnd, ?_, fun c p hp => (hentry c p hp).2⟩, ⟨hcount, ?_, ?_⟩, ?_⟩
  · intro c
    rw [mem_keys_iff_lookup, hlook c]
    by_cases he : members a c = []
    · simp [he, (members_eq_nil_iff a c).mp he]
    · have : c ∈ a := by
        by_contra hc
        exact he ((members_eq_nil_iff a c).mpr hc)
      simp [he, this]
  · intro c p hp
    obtain ⟨-, h1, h2⟩ := hentry c p hp
    rw [h1, h2, List.length_map, List.length_map]
  · intro i hi
    have hget : a[i]? = some a[i] := List.getElem?_eq_getElem hi
    have hmem : i ∈ members a a[i] := (mem_members a _ i).mpr hget
    refine ⟨a[i], ⟨List.count_eq_one_of_mem (nodup_members a _) hmem, ?_⟩, ?_⟩
    · have hne : members a a[i] ≠ [] := List.ne_nil_of_mem hmem
      refine ⟨((members a a[i]).map f0, (members a a[i]).map f1), ?_, rfl, rfl⟩
      apply mem_of_lookup
      rw [hlook]
      simp [hne]
    · rintro c ⟨hc, -⟩
      have : i ∈ members a c := by
        apply List.count_pos_iff.mp
        omega
      have h2 := (mem_members a c i).mp this
      rw [hget] at h2
      exact (Option.some.inj h2).symm
  · intro c p hp
    obtain ⟨hne, h1, -⟩ := hentry c p hp
    rw [h1, List.length_map]
    exact List.length_pos.mpr hne

/-! ## The grouping loops of the two programs -/

theorem mlpack_groupLoop_eq {α : Type} (inputs : Mat α) (a : List Nat) :
    mlpack.groupLoop inputs a =
      (List.range inputs.n_cols).foldlM
        (groupStep (inputs.elem 0) (inputs.elem 1) (fun i => a[i]?)) [] := by
  have hbody : mlpack.groupBody inputs a =
      groupStep (inputs.elem 0) (inputs.elem 1) (fun i => a[i]?) := by
    funext m i
    simp only [mlpack.groupBody, groupStep]
  rw [mlpack.groupLoop, hbody]

theorem dlib_groupLoop_eq {α : Type} (inputs : Mat α) (a : List Nat) :
    dlib.groupLoop inputs a =
      (List.range inputs.nr).foldlM
        (groupStep (fun i => inputs.elem i 0) (fun i => inputs.elem i 1) (fun i => a[i]?))
        [] := by
  have hbody : dlib.groupBody inputs a =
      groupStep (fun i => inputs.elem i 0) (fun i => inputs.elem i 1) (fun i => a[i]?) := by
    funext m i
    simp only [dlib.groupBody, groupStep]
  rw [dlib.groupLoop, hbody]

theorem dlib_kmeanLoop_eq {α : Type} (inputs : Mat α) (samples : List (α × α))
    (kmeans : α × α → Nat) :
    dlib.kmeanLoop inputs samples kmeans =
      (List.range inputs.nr).foldlM
        (groupStep (fun i => inputs.elem i 0) (fun i => inputs.elem i 1)
          (fun i => (samples.map kmeans)[i]?)) [] := by
  have hbody : dlib.kmeanBody inputs samples kmeans =
      groupStep (fun i => inputs.elem i 0) (fun i => inputs.elem i 1)
        (fun i => (samples.map kmeans)[i]?) := by
    funext m i
    simp only [dlib.kmeanBody, groupStep, List.getElem?_map]
    cases samples[i]? <;> rfl
  rw [dlib.kmeanLoop, hbody]

theorem length_kmeanClustering_samples {α : Type} (inputs : Mat α) :
    (dlib.kmeanClustering_samples inputs).length = inputs.nr := by
  simp [dlib.kmeanClustering_samples]

/-- The grouping loop of `mlPackCluster.cpp` on an assignment vector with one entry per
column of `inputs`. -/
theorem mlpack_groupLoop_spec {α : Type} (inputs : Mat α) (a : List Nat)
    (hlen : a.length = inputs.n_cols) :
    ∃ m, mlpack.groupLoop inputs a = some m ∧
      IsGroupingOf (inputs.elem 0) (inputs.elem 1) a m ∧
      IsTotalPlot (inputs.elem 0) (inputs.elem 1) inputs.n_cols a m ∧
      ∀ c p, (c, p) ∈ m → 0 < p.1.length := by
  rw [mlpack_groupLoop_eq, ← hlen]
  exact groupFold_grouping _ _ a

/-- The grouping loop of `dlib-cluster.cpp` on a cluster vector with one entry per row of
`inputs`. -/
theorem dlib_groupLoop_spec {α : Type} (inputs : Mat α) (a : List Nat)
    (hlen : a.length = inputs.nr) :
    ∃ m, dlib.groupLoop inputs a = some m ∧
      IsGroupingOf (fun i => inputs.elem i 0) (fun i => inputs.elem i 1) a m ∧
      IsTotalPlot (fun i => inputs.elem i 0) (fun i => inputs.elem i 1) inputs.nr a m ∧
      ∀ c p, (c, p) ∈ m → 0 < p.1.length := by
  rw [dlib_groupLoop_eq, ← hlen]
  exact groupFold_grouping _ _ a

/-- The grouping loop of the dlib `kmeanClustering`, whose assignment of sample `i` is
`kmeans(samples[i])`. -/
theorem dlib_kmeanLoop_spec {α : Type} (inputs : Mat α) (kmeans : α × α → Nat) :
    ∃ m, dlib.kmeanLoop inputs (dlib.kmeanClustering_samples inputs) kmeans = some m ∧
      IsGroupingOf (fun i => inputs.elem i 0) (fun i => inputs.elem i 1)
        ((dlib.kmeanClustering_samples inputs).map kmeans) m ∧
      IsTotalPlot (fun i => inputs.elem i 0) (fun i => inputs.elem i 1) inputs.nr
        ((dlib.kmeanClustering_samples inputs).map kmeans) m ∧
      ∀ c p, (c, p) ∈ m → 0 < p.1.length := by
  have hlen : ((dlib.kmeanClustering_samples inputs).map kmeans).length = inputs.nr := by
    rw [List.length_map, length_kmeanClustering_samples]
  rw [dlib_kmeanLoop_eq, ← hlen]
  exact groupFold_grouping _ _ _

/-! ## Claims -/

/-- C1. Mapping assignments to plotting coordinates: for every sample matrix and every
assignment vector `a` with one entry per sample, each of the eight clustering routines
whose library call returns `a` hands to `PlotClusters` a cluster map whose keys are
exactly the values occurring in `a` and whose entry for key `c` lists the feature-0
values (first list) and feature-1 values (second list) of exactly the samples `i` with
`a[i] = c`, in increasing order of `i`. For the dlib `kmeanClustering` the assignment
vector is `kmeans(samples[i])` for `i = 0 .. n-1`. -/
theorem C1_routines_group_by_assignment {α : Type} [LinearOrderedField α]
    (inputs : Mat α) (a : List Nat) (num_clusters : Nat) (name : String) :
    (a.length = inputs.n_cols →
      (∀ lib, lib inputs num_clusters = some a →
        ∃ call, mlpack.kmeanClustering lib inputs num_clusters name = some call ∧
          IsGroupingOf (inputs.elem 0) (inputs.elem 1) a call.clusters) ∧
      (∀ lib, lib inputs = some a →
        ∃ call, mlpack.DBScanClustering lib inputs name = some call ∧
          IsGroupingOf (inputs.elem 0) (inputs.elem 1) a call.clusters) ∧
      (∀ lib, lib inputs = some a →
        ∃ call, mlpack.DMeanShiftClustering lib inputs name = some call ∧
          IsGroupingOf (inputs.elem 0) (inputs.elem 1) a call.clusters) ∧
      (∀ lib, lib inputs num_clusters = some a →
        ∃ call, mlpack.GMMClustering lib inputs num_clusters name = some call ∧
          IsGroupingOf (inputs.elem 0) (inputs.elem 1) a call.clusters)) ∧
    (a.length = inputs.nr →
      (∀ sqrt uninit lib,
        lib (dlib.hierachicalClustering_dist sqrt uninit inputs) num_clusters = some a →
        ∃ call, dlib.hierachicalClustering sqrt uninit lib inputs num_clusters name =
            some call ∧
          IsGroupingOf (fun i => inputs.elem i 0) (fun i => inputs.elem i 1) a
            call.clusters) ∧
      (∀ sqrt lib, lib (dlib.graphClustering_edges sqrt inputs) = some a →
        ∃ call, dlib.graphClustering sqrt lib inputs name = some call ∧
          IsGroupingOf (fun i => inputs.elem i 0) (fun i => inputs.elem i 1) a
            call.clusters) ∧
      (∀ sqrt lib, lib (dlib.DoGraphNewmanClustering_edges sqrt inputs) = some a →
        ∃ call, dlib.DoGraphNewmanClustering sqrt lib inputs name = some call ∧
          IsGroupingOf (fun i => inputs.elem i 0) (fun i => inputs.elem i 1) a
            call.clusters)) ∧
    (∀ lib kmeans, lib (dlib.kmeanClustering_samples inputs) num_clusters = some kmeans →
      a = (dlib.kmeanClustering_samples inputs).map kmeans →
      ∃ call, dlib.kmeanClustering lib inputs num_clusters name = some call ∧
        IsGroupingOf (fun i => inputs.elem i 0) (fun i => inputs.elem i 1) a
          call.clusters) := by
  refine ⟨fun hlen => ?_, fun hlen => ?_, ?_⟩
  · obtain ⟨m, hm, hg, -⟩ := mlpack_groupLoop_spec inputs a hlen
    refine ⟨?_, ?_, ?_, ?_⟩ <;> intro lib hlib
    · exact ⟨⟨m, _, _⟩, by simp only [mlpack.kmeanClustering, hlib, hm]; rfl, hg⟩
    · exact ⟨⟨m, _, _⟩, by simp only [mlpack.DBScanClustering, hlib, hm]; rfl, hg⟩
    · exact ⟨⟨m, _, _⟩, by simp only [mlpack.DMeanShiftClustering, hlib, hm]; rfl, hg⟩
    · exact ⟨⟨m, _, _⟩, by simp only [mlpack.GMMClustering, hlib, hm]; rfl, hg⟩
  · obtain ⟨m, hm, hg, -⟩ := dlib_groupLoop_spec inputs a hlen
    refine ⟨?_, ?_, ?_⟩
    · intro sqrt uninit lib hlib
      exact ⟨⟨m, _, _⟩, by simp only [dlib.hierachicalClustering, hlib, hm]; rfl, hg⟩
    · intro sqrt lib hlib
      exact ⟨⟨m, _, _⟩, by simp only [dlib.graphClustering, hlib, hm]; rfl, hg⟩
    · intro sqrt lib hlib
      exact ⟨⟨m, _, _⟩, by simp only [dlib.DoGraphNewmanClustering, hlib, hm]; rfl, hg⟩
  · intro lib kmeans hlib ha
    obtain ⟨m, hm, hg, -⟩ := dlib_kmeanLoop_spec inputs kmeans
    subst ha
    exact ⟨⟨m, _, _⟩, by simp only [dlib.kmeanClustering, hlib, hm]; rfl, hg⟩

/-- Instance of C1: the assignment vector `[1, 0, 1]` on three samples, through the mlpack
`kmeanClustering` and the dlib `hierachicalClustering`. -/
theorem C1_routines_group_by_assignment_witness :
    ([1, 0, 1].length = exampleColumns.n_cols ∧
      ∃ call, mlpack.kmeanClustering (fun _ _ => some [1, 0, 1]) exampleColumns 2
          "dataset0.csv" = some call ∧
        IsGroupingOf (exampleColumns.elem 0) (exampleColumns.elem 1) [1, 0, 1]
          call.clusters) ∧
    ([1, 0, 1].length = exampleRows.nr ∧
      ∃ call, dlib.hierachicalClustering (fun x => x) (fun _ _ => 0)
          (fun _ _ => some [1, 0, 1]) exampleRows 2 "dataset0.csv" = some call ∧
        IsGroupingOf (fun i => exampleRows.elem i 0) (fun i => exampleRows.elem i 1)
          [1, 0, 1] call.clusters) :=
  ⟨⟨rfl, ((C1_routines_group_by_assignment exampleColumns [1, 0, 1] 2 "dataset0.csv").1
      rfl).1 _ rfl⟩,
   ⟨rfl, ((C1_routines_group_by_assignment exampleRows [1, 0, 1] 2 "dataset0.csv").2.1
      rfl).1 _ _ _ rfl⟩⟩

/-- C2. The assignment used for plotting is total over the dataset indices: for every
dataset of `n` samples and every assignment vector of length `n`, each grouping loop
(mlpack layout, dlib layout, and the dlib `kmeanClustering` loop that reads
`kmeans(samples[i])`) returns a cluster map in which every sample index `0 .. n-1`
contributes exactly one point to exactly one cluster, the point counts of all clusters
sum to `n`, and the x-list and y-list of every cluster have the same length. -/
theorem C2_every_sample_plotted_once {α : Type} (inputs : Mat α) (a : List Nat) :
    (a.length = inputs.n_cols →
      ∃ m, mlpack.groupLoop inputs a = some m ∧
        IsTotalPlot (inputs.elem 0) (inputs.elem 1) inputs.n_cols a m) ∧
    (a.length = inputs.nr →
      ∃ m, dlib.groupLoop inputs a = some m ∧
        IsTotalPlot (fun i => inputs.elem i 0) (fun i => inputs.elem i 1) inputs.nr a m) ∧
    (∀ kmeans, a = (dlib.kmeanClustering_samples inputs).map kmeans →
      ∃ m, dlib.kmeanLoop inputs (dlib.kmeanClustering_samples inputs) kmeans = some m ∧
        IsTotalPlot (fun i => inputs.elem i 0) (fun i => inputs.elem i 1) inputs.nr a m) := by
  refine ⟨fun hlen => ?_, fun hlen => ?_, fun kmeans ha => ?_⟩
  · obtain ⟨m, hm, -, ht, -⟩ := mlpack_groupLoop_spec inputs a hlen
    exact ⟨m, hm, ht⟩
  · obtain ⟨m, hm, -, ht, -⟩ := dlib_groupLoop_spec inputs a hlen
    exact ⟨m, hm, ht⟩
  · obtain ⟨m, hm, -, ht, -⟩ := dlib_kmeanLoop_spec inputs kmeans
    subst ha
    exact ⟨m, hm, ht⟩

/-- Instance of C2: the assignment vector `[1, 0, 1]` on three samples, in both layouts. -/
theorem C2_every_sample_plotted_once_witness :
    ([1, 0, 1].length = exampleColumns.n_cols ∧
      ∃ m, mlpack.groupLoop exampleColumns [1, 0, 1] = some m ∧
        IsTotalPlot (exampleColumns.elem 0) (exampleColumns.elem 1) exampleColumns.n_cols
          [1, 0, 1] m) ∧
    ([1, 0, 1].length = exampleRows.nr ∧
      ∃ m, dlib.groupLoop exampleRows [1, 0, 1] = some m ∧
        IsTotalPlot (fun i => exampleRows.elem i 0) (fun i => exampleRows.elem i 1)
          exampleRows.nr [1, 0, 1] m) :=
  ⟨⟨rfl, (C2_every_sample_plotted_once exampleColumns [1, 0, 1]).1 rfl⟩,
   ⟨rfl, (C2_every_sample_plotted_once exampleRows [1, 0, 1]).2.1 rfl⟩⟩

/-- C9. Colour lookup in `PlotClusters` against the 8-entry colour list: the mlpack
program indexes with `key mod 8`, so the lookup is in range for every key, the maximal
`size_t` value going to index 7; the dlib program indexes with the key itself, so the
lookup is in range exactly when `key < 8`; for every `key < 8` both select the same
colour. -/
theorem C9_colour_lookup :
    colors.length = 8 ∧
    (∀ key, key % colors.length < colors.length ∧
      ∃ colour, mlpack.PlotClusters_color key = some colour) ∧
    (SIZE_MAX % colors.length = 7 ∧ mlpack.PlotClusters_color SIZE_MAX = colors[7]?) ∧
    (∀ key, (∃ colour, dlib.PlotClusters_color key = some colour) ↔ key < 8) ∧
    (∀ key, key < 8 → mlpack.PlotClusters_color key = dlib.PlotClusters_color key) := by
  have hlen : colors.length = 8 := rfl
  refine ⟨hlen, ?_, ⟨by decide, by decide⟩, ?_, ?_⟩
  · intro key
    have hlt : key % colors.length < colors.length := Nat.mod_lt _ (by decide)
    exact ⟨hlt, colors[key % colors.length], List.getElem?_eq_getElem hlt⟩
  · intro key
    constructor
    · rintro ⟨colour, hc⟩
      have := (List.getElem?_eq_some.mp hc).1
      rwa [hlen] at this
    · intro hk
      have hlt : key < colors.length := by rw [hlen]; exact hk
      exact ⟨colors[key], List.getElem?_eq_getElem hlt⟩
  · intro key hk
    simp only [mlpack.PlotClusters_color, dlib.PlotClusters_color, hlen, Nat.mod_eq_of_lt hk]

/-- Instance of C9 at key 3: both programs select `green`. -/
theorem C9_colour_lookup_witness :
    (3 : Nat) < 8 ∧ mlpack.PlotClusters_color 3 = dlib.PlotClusters_color 3 :=
  ⟨by decide, C9_colour_lookup.2.2.2.2 3 (by decide)⟩

/-! ## Cluster count selection -/

theorem foldl_set_insert {β : Type} [DecidableEq β] (l s : List β) (hs : s.Nodup) :
    (l.foldl (fun s x => if x ∈ s then s else x :: s) s).Nodup ∧
      ∀ x, x ∈ l.foldl (fun s x => if x ∈ s then s else x :: s) s ↔ x ∈ s ∨ x ∈ l := by
  induction l generalizing s with
  | nil => simp [hs]
  | cons y rest ih =>
    simp only [List.foldl_cons]
    by_cases hy : y ∈ s
    · simp only [hy, if_true]
      obtain ⟨h1, h2⟩ := ih s hs
      refine ⟨h1, fun x => ?_⟩
      rw [h2 x, List.mem_cons]
      constructor
      · rintro (h | h)
        · exact Or.inl h
        · exact Or.inr (Or.inr h)
      · rintro (h | h | h)
        · exact Or.inl h
        · exact Or.inl (h ▸ hy)
        · exact Or.inr h
    · simp only [hy, if_false]
      obtain ⟨h1, h2⟩ := ih (y :: s) (List.nodup_cons.mpr ⟨hy, hs⟩)
      refine ⟨h1, fun x => ?_⟩
      rw [h2 x, List.mem_cons, List.mem_cons]
      tauto

/-- The size of `std::set<T>(first, last)` is the number of distinct elements. -/
theorem std_set_size_eq {β : Type} [DecidableEq β] (l : List β) :
    std_set_size l = l.toFinset.card := by
  obtain ⟨h1, h2⟩ := foldl_set_insert l [] List.nodup_nil
  rw [std_set_size, ← List.toFinset_card_of_nodup h1]
  congr 1
  ext x
  simp [h2 x]

theorem select_num_clusters_eq {β : Type} [DecidableEq β] (labels : List β) :
    select_num_clusters labels =
      if 2 ≤ labels.toFinset.card then labels.toFinset.card else 3 := by
  simp only [select_num_clusters, std_set_size_eq]
  by_cases h : labels.toFinset.card < 2
  · simp [h, Nat.not_le.mpr h]
  · simp [h, Nat.le_of_not_lt h]

theorem two_le_select_num_clusters {β : Type} [DecidableEq β] (labels : List β) :
    2 ≤ select_num_clusters labels := by
  rw [select_num_clusters_eq]
  by_cases h : 2 ≤ labels.toFinset.card <;> simp [h]

theorem select_num_clusters_le_iff {β : Type} [DecidableEq β] (labels : List β) :
    select_num_clusters labels ≤ labels.length ↔
      (2 ≤ labels.toFinset.card ∨ 3 ≤ labels.length) := by
  rw [select_num_clusters_eq]
  have hcard : labels.toFinset.card ≤ labels.length := List.toFinset_card_le labels
  by_cases h : 2 ≤ labels.toFinset.card
  · simp [h, hcard]
  · simp [h]

theorem length_mlpack_main_labels {α : Type} (w : mlpack.World α) (dataset : Mat α) :
    (mlpack.main_labels w dataset).length = dataset.n_cols := by
  simp [mlpack.main_labels]

theorem length_dlib_main_labels {α : Type} (data : Mat α) :
    (dlib.main_labels data).length = data.nr := by
  simp [dlib.main_labels, dlib.subm, Mat.nr]

/-- C8. Cluster count selection in both `main`s: `num_clusters` equals the number `d` of
distinct label values when `d` is at least 2 and equals 3 otherwise, so it is always at
least 2 and never 1; and when the label column holds non-negative integers (on which the
numeric conversions of the mlpack program are exact) both programs compute the same
`num_clusters`. -/
theorem C8_cluster_count_selection {α : Type} [DecidableEq α] [NatCast α] :
    (∀ (w : mlpack.World α) (labels : List Nat),
      mlpack.main_num_clusters w labels =
        (if 2 ≤ (labels.map w.size_t_to_double).toFinset.card
          then (labels.map w.size_t_to_double).toFinset.card else 3) ∧
      2 ≤ mlpack.main_num_clusters w labels ∧ mlpack.main_num_clusters w labels ≠ 1) ∧
    (∀ (data : Mat α),
      select_num_clusters (dlib.main_labels data) =
        (if 2 ≤ (dlib.main_labels data).toFinset.card
          then (dlib.main_labels data).toFinset.card else 3) ∧
      2 ≤ select_num_clusters (dlib.main_labels data) ∧
      select_num_clusters (dlib.main_labels data) ≠ 1) ∧
    (∀ (w : mlpack.World α) (dataset data : Mat α) (ns : List Nat),
      (∀ n, n ∈ ns → w.conv_to_size_t (n : α) = n ∧ w.size_t_to_double n = (n : α)) →
      (List.range dataset.n_cols).map (fun j => dataset.elem (dataset.n_rows - 1) j) =
        ns.map (Nat.cast : Nat → α) →
      dlib.main_labels data = ns.map (Nat.cast : Nat → α) →
      mlpack.main_num_clusters w (mlpack.main_labels w dataset) =
        select_num_clusters (dlib.main_labels data)) := by
  refine ⟨fun w labels => ?_, fun data => ?_, ?_⟩
  · have h2 := two_le_select_num_clusters (labels.map w.size_t_to_double)
    refine ⟨select_num_clusters_eq _, h2, ?_⟩
    simp only [mlpack.main_num_clusters]
    omega
  · have h2 := two_le_select_num_clusters (dlib.main_labels data)
    exact ⟨select_num_clusters_eq _, h2, by omega⟩
  · intro w dataset data ns hexact hrow hcol
    have hlabels : mlpack.main_labels w dataset = ns.map (fun n : Nat => w.conv_to_size_t (n : α)) := by
      have := congrArg (List.map w.conv_to_size_t) hrow
      simpa [mlpack.main_labels, List.map_map, Function.comp_def] using this
    rw [mlpack.main_num_clusters, hlabels, hcol, List.map_map]
    congr 1
    apply List.map_congr_left
    intro n hn
    obtain ⟨h1, h2⟩ := hexact n hn
    simp only [Function.comp_apply, h1, h2]

/-! ## The `main` functions -/

theorem run_calls_subset {α : Type} (w : mlpack.World α) (l : List (mlpack.Invocation α))
    (inv : mlpack.Invocation α) (h : inv ∈ (mlpack.run_calls w l).1) : inv ∈ l := by
  induction l with
  | nil => simp [mlpack.run_calls] at h
  | cons x rest ih =>
    simp only [mlpack.run_calls] at h
    cases hx : x.run w with
    | none =>
      simp only [hx, List.mem_singleton] at h
      exact h ▸ List.mem_cons_self _ _
    | some call =>
      simp only [hx, List.mem_cons] at h
      rcases h with h | h
      · exact h ▸ List.mem_cons_self _ _
      · exact List.mem_cons_of_mem _ (ih h)

theorem head_mem_run_calls {α : Type} (w : mlpack.World α) (inv : mlpack.Invocation α)
    (rest : List (mlpack.Invocation α)) : inv ∈ (mlpack.run_calls w (inv :: rest)).1 := by
  simp only [mlpack.run_calls]
  cases inv.run w <;> simp

/-- The loop body once the load succeeded with the index row and the label row. -/
theorem main_process_eq {α : Type} [DecidableEq α] (w : mlpack.World α)
    (file_path dataset_name : String) (dataset : Mat α) (hload : w.Load file_path = some dataset)
    (hrows : 2 ≤ dataset.n_rows) :
    mlpack.main_process w file_path dataset_name =
      mlpack.run_calls w
        [ .kmeanClustering (mlpack.removeRow (mlpack.removeRow dataset (dataset.n_rows - 1)) 0)
            (mlpack.main_num_clusters w (mlpack.main_labels w dataset)) dataset_name,
          .DBScanClustering (mlpack.removeRow (mlpack.removeRow dataset (dataset.n_rows - 1)) 0)
            dataset_name,
          .DMeanShiftClustering
            (mlpack.removeRow (mlpack.removeRow dataset (dataset.n_rows - 1)) 0) dataset_name,
          .GMMClustering (mlpack.removeRow (mlpack.removeRow dataset (dataset.n_rows - 1)) 0)
            (mlpack.main_num_clusters w (mlpack.main_labels w dataset)) dataset_name ] := by
  have h0 : ¬ dataset.n_rows = 0 := by omega
  have h1 : dataset.n_rows - 1 < dataset.n_rows := by omega
  have h2 : 0 < (mlpack.removeRow dataset (dataset.n_rows - 1)).n_rows := by
    simp only [mlpack.removeRow]
    omega
  simp only [mlpack.main_process, hload, h0, if_false, mlpack.shed_row, h1, if_true, h2]

/-- Every invocation made by the loop body is one of the four routine calls on the
loaded matrix without its index and label rows. -/
theorem mem_main_process {α : Type} [DecidableEq α] (w : mlpack.World α)
    (file_path dataset_name : String) (dataset : Mat α) (hload : w.Load file_path = some dataset)
    (inv : mlpack.Invocation α)
    (hinv : inv ∈ (mlpack.main_process w file_path dataset_name).1) :
    inv.inputs.n_cols = dataset.n_cols ∧
    (inv.num_clusters? = none ∨
      inv.num_clusters? = some (mlpack.main_num_clusters w (mlpack.main_labels w dataset))) := by
  by_cases hrows : 2 ≤ dataset.n_rows
  · rw [main_process_eq w file_path dataset_name dataset hload hrows] at hinv
    have := run_calls_subset w _ inv hinv
    simp only [List.mem_cons, List.mem_singleton, List.not_mem_nil, or_false] at this
    rcases this with rfl | rfl | rfl | rfl <;>
      simp [mlpack.Invocation.inputs, mlpack.Invocation.num_clusters?, mlpack.removeRow]
  · exfalso
    simp only [mlpack.main_process, hload, mlpack.shed_row] at hinv
    by_cases h0 : dataset.n_rows = 0
    · simp [h0] at hinv
    · have h1 : dataset.n_rows - 1 < dataset.n_rows := by omega
      have h2 : ¬ 0 < (mlpack.removeRow dataset (dataset.n_rows - 1)).n_rows := by
        simp only [mlpack.removeRow]
        omega
      simp [h0, h1, h2] at hinv

/-- Instance of C8: the label column `0, 1, 0, 1` of non-negative integers; both programs
select the same cluster count. -/
theorem C8_cluster_count_selection_witness :
    (∀ n, n ∈ [0, 1, 0, 1] → exampleWorld.conv_to_size_t ((n : Nat) : ℚ) = n ∧
      exampleWorld.size_t_to_double n = (n : ℚ)) ∧
    (List.range exampleDataset.n_cols).map
        (fun j => exampleDataset.elem (exampleDataset.n_rows - 1) j) =
      [0, 1, 0, 1].map (Nat.cast : Nat → ℚ) ∧
    dlib.main_labels (exampleDlibWorld.read_matrix "data/dataset0.csv") =
      [0, 1, 0, 1].map (Nat.cast : Nat → ℚ) ∧
    mlpack.main_num_clusters exampleWorld (mlpack.main_labels exampleWorld exampleDataset) =
      select_num_clusters (dlib.main_labels (exampleDlibWorld.read_matrix "data/dataset0.csv")) := by
  have hexact : ∀ n, n ∈ [0, 1, 0, 1] → exampleWorld.conv_to_size_t ((n : Nat) : ℚ) = n ∧
      exampleWorld.size_t_to_double n = (n : ℚ) := by
    intro n _
    simp [exampleWorld]
  have hcol : dlib.main_labels (exampleDlibWorld.read_matrix "data/dataset0.csv") =
      [0, 1, 0, 1].map (Nat.cast : Nat → ℚ) := by
    simp [dlib.main_labels, exampleDlibWorld, dlib.subm, Mat.nr, List.range_succ]
  have hrow : (List.range exampleDataset.n_cols).map
      (fun j => exampleDataset.elem (exampleDataset.n_rows - 1) j) =
      [0, 1, 0, 1].map (Nat.cast : Nat → ℚ) := by
    simp [exampleDataset, List.range_succ]
  exact ⟨hexact, hrow, hcol,
    C8_cluster_count_selection.2.2 exampleWorld _ _ [0, 1, 0, 1] hexact hrow hcol⟩

/-- C4, as amended. For every loaded dataset with `n` samples, the cluster count `k`
that `main` hands to a clustering routine satisfies `2 ≤ k` (hence `1 ≤ k`); `k ≤ n`
holds exactly when `n ≥ 3` or the label set built by `main` has at least two distinct
values, and otherwise `k = 3 > n` is handed over. The label set is built from the
label column itself in the dlib program and from the label row after its conversion to
`size_t` (line 154) in the mlpack program. Here `n` is the number of columns of the
matrix handed over by the mlpack `main` and its number of rows for the dlib `main`. -/
theorem C4_cluster_count_bounds {α : Type} [DecidableEq α] :
    (∀ (w : mlpack.World α) (file_path dataset_name : String) (dataset : Mat α)
      (inv : mlpack.Invocation α) (k : Nat), w.Load file_path = some dataset →
      inv ∈ (mlpack.main_process w file_path dataset_name).1 →
      inv.num_clusters? = some k →
      inv.inputs.n_cols = dataset.n_cols ∧ 2 ≤ k ∧ 1 ≤ k ∧
      (k ≤ inv.inputs.n_cols ↔
        (2 ≤ ((mlpack.main_labels w dataset).map w.size_t_to_double).toFinset.card ∨
          3 ≤ inv.inputs.n_cols)) ∧
      (¬ (2 ≤ ((mlpack.main_labels w dataset).map w.size_t_to_double).toFinset.card ∨
          3 ≤ inv.inputs.n_cols) → k = 3 ∧ inv.inputs.n_cols < k)) ∧
    (∀ (w : dlib.World α) (dataset_path dataset : String) (inv : dlib.Invocation α)
      (k : Nat), inv ∈ dlib.main_process w dataset_path dataset →
      inv.num_clusters? = some k →
      inv.inputs.nr = (w.read_matrix dataset_path).nr ∧ 2 ≤ k ∧ 1 ≤ k ∧
      (k ≤ inv.inputs.nr ↔
        (2 ≤ (dlib.main_labels (w.read_matrix dataset_path)).toFinset.card ∨
          3 ≤ inv.inputs.nr)) ∧
      (¬ (2 ≤ (dlib.main_labels (w.read_matrix dataset_path)).toFinset.card ∨
          3 ≤ inv.inputs.nr) → k = 3 ∧ inv.inputs.nr < k)) := by
  constructor
  · intro w file_path dataset_name dataset inv k hload hinv hk
    obtain ⟨hcols, hkk⟩ := mem_main_process w file_path dataset_name dataset hload inv hinv
    have hlen : ((mlpack.main_labels w dataset).map w.size_t_to_double).length =
        dataset.n_cols := by
      rw [List.length_map, length_mlpack_main_labels]
    have h2 := two_le_select_num_clusters ((mlpack.main_labels w dataset).map w.size_t_to_double)
    have hiff := select_num_clusters_le_iff
      ((mlpack.main_labels w dataset).map w.size_t_to_double)
    have heq := select_num_clusters_eq ((mlpack.main_labels w dataset).map w.size_t_to_double)
    rw [hlen] at hiff
    rw [hk] at hkk
    rcases hkk with hkk | hkk
    · cases hkk
    · have hkeq : k = select_num_clusters
          ((mlpack.main_labels w dataset).map w.size_t_to_double) := Option.some.inj hkk
      rw [hcols, hkeq]
      refine ⟨rfl, h2, by omega, hiff, fun hnot => ?_⟩
      have hd : ¬ 2 ≤ ((mlpack.main_labels w dataset).map w.size_t_to_double).toFinset.card :=
        fun h => hnot (Or.inl h)
      have hn : ¬ 3 ≤ dataset.n_cols := fun h => hnot (Or.inr h)
      rw [heq, if_neg hd]
      exact ⟨rfl, by omega⟩
  · intro w dataset_path dataset inv k hinv hk
    have h2 := two_le_select_num_clusters (dlib.main_labels (w.read_matrix dataset_path))
    have hiff := select_num_clusters_le_iff (dlib.main_labels (w.read_matrix dataset_path))
    have heq := select_num_clusters_eq (dlib.main_labels (w.read_matrix dataset_path))
    rw [length_dlib_main_labels] at hiff
    simp only [dlib.main_process, List.mem_singleton] at hinv
    subst hinv
    simp only [dlib.Invocation.num_clusters?, Option.some.injEq] at hk
    subst hk
    refine ⟨rfl, h2, by omega, hiff, fun hnot => ?_⟩
    have hd : ¬ 2 ≤ (dlib.main_labels (w.read_matrix dataset_path)).toFinset.card :=
      fun h => hnot (Or.inl h)
    have hn : ¬ 3 ≤ (w.read_matrix dataset_path).nr := fun h => hnot (Or.inr h)
    rw [heq, if_neg hd]
    exact ⟨rfl, by
      show (dlib.subm (w.read_matrix dataset_path) 0 1 (w.read_matrix dataset_path).nr 2).nr < 3
      simp only [dlib.subm, Mat.nr] at hn ⊢
      omega⟩

theorem floor_one_fifth : ⌊(1 / 5 : ℚ)⌋ = 0 :=
  Int.floor_eq_iff.mpr ⟨by norm_num, by norm_num⟩

theorem floor_seven_tenths : ⌊(7 / 10 : ℚ)⌋ = 0 :=
  Int.floor_eq_iff.mpr ⟨by norm_num, by norm_num⟩

/-- Instance of C4 (amended) on two samples labelled `1/5` and `7/10`: the label column
has two distinct values, the conversion to `size_t` sends both to 0, and the mlpack
`main` hands `num_clusters = 3 > 2` to `kmeanClustering`. -/
theorem C4_cluster_count_bounds_witness :
    fractionalLabelWorld.Load "data/dataset0.csv" = some fractionalLabelDataset ∧
    mlpack.main_labels fractionalLabelWorld fractionalLabelDataset = [0, 0] ∧
    ∃ inv, inv ∈ (mlpack.main_process fractionalLabelWorld "data/dataset0.csv"
        "dataset0.csv").1 ∧
      inv.num_clusters? = some 3 ∧ inv.inputs.n_cols = 2 ∧ 2 ≤ 3 ∧
      ¬ (3 ≤ inv.inputs.n_cols) := by
  have hload : fractionalLabelWorld.Load "data/dataset0.csv" = some fractionalLabelDataset :=
    rfl
  have hlabels : mlpack.main_labels fractionalLabelWorld fractionalLabelDataset = [0, 0] := by
    show [⌊(1 / 5 : ℚ)⌋.toNat, ⌊(7 / 10 : ℚ)⌋.toNat] = [0, 0]
    rw [floor_one_fifth, floor_seven_tenths]
    rfl
  have hk : mlpack.main_num_clusters fractionalLabelWorld
      (mlpack.main_labels fractionalLabelWorld fractionalLabelDataset) = 3 := by
    rw [hlabels, mlpack.main_num_clusters, select_num_clusters_eq]
    simp [fractionalLabelWorld, exampleWorld]
  have hmem : mlpack.Invocation.kmeanClustering
      (mlpack.removeRow (mlpack.removeRow fractionalLabelDataset
        (fractionalLabelDataset.n_rows - 1)) 0)
      (mlpack.main_num_clusters fractionalLabelWorld
        (mlpack.main_labels fractionalLabelWorld fractionalLabelDataset)) "dataset0.csv" ∈
      (mlpack.main_process fractionalLabelWorld "data/dataset0.csv" "dataset0.csv").1 := by
    rw [main_process_eq fractionalLabelWorld "data/dataset0.csv" "dataset0.csv" _ hload
      (by decide)]
    exact head_mem_run_calls _ _ _
  have hnum : (mlpack.Invocation.kmeanClustering
      (mlpack.removeRow (mlpack.removeRow fractionalLabelDataset
        (fractionalLabelDataset.n_rows - 1)) 0)
      (mlpack.main_num_clusters fractionalLabelWorld
        (mlpack.main_labels fractionalLabelWorld fractionalLabelDataset))
      "dataset0.csv").num_clusters? = some 3 := by
    simp only [mlpack.Invocation.num_clusters?, hk]
  have h := C4_cluster_count_bounds.1 fractionalLabelWorld "data/dataset0.csv" "dataset0.csv"
    _ _ 3 hload hmem hnum
  exact ⟨hload, hlabels, _, hmem, hnum, h.1, h.2.1, by rw [h.1]; decide⟩

/-- Counterexample to C4 as stated: on a dataset with one sample the mlpack `main` hands
`num_clusters = 3` to `kmeanClustering`, which exceeds the number of samples. -/
theorem C4_counterexample :
    ∃ inv, inv ∈ (mlpack.main_process oneSampleWorld "data/dataset0.csv" "dataset0.csv").1 ∧
      inv.inputs.n_cols = 1 ∧ inv.num_clusters? = some 3 ∧
      ¬ (1 ≤ 3 ∧ 3 ≤ inv.inputs.n_cols) := by
  have hload : oneSampleWorld.Load "data/dataset0.csv" = some oneSampleDataset := rfl
  have hmem : mlpack.Invocation.kmeanClustering
      (mlpack.removeRow (mlpack.removeRow oneSampleDataset (oneSampleDataset.n_rows - 1)) 0)
      (mlpack.main_num_clusters oneSampleWorld
        (mlpack.main_labels oneSampleWorld oneSampleDataset)) "dataset0.csv" ∈
      (mlpack.main_process oneSampleWorld "data/dataset0.csv" "dataset0.csv").1 := by
    rw [main_process_eq oneSampleWorld "data/dataset0.csv" "dataset0.csv" _ hload
      (by decide)]
    exact head_mem_run_calls _ _ _
  refine ⟨_, hmem, rfl, ?_, by decide⟩
  simp only [mlpack.Invocation.num_clusters?, Option.some.injEq]
  rw [mlpack.main_num_clusters, select_num_clusters_eq]
  simp [mlpack.main_labels, oneSampleWorld, oneSampleDataset, exampleWorld, List.range_succ]

/-- C6, evaluated on a directory that holds `dataset0.csv` and `dataset3.csv`: the
mlpack `main` invokes its four routines on each existing dataset, while the dlib `main`
invokes `hierachicalClustering` only, so the images `-graph.png`, `-graph-newman.png`
and `-kmeans.png` of the dlib program are never rendered. -/
theorem C6_dlib_main_runs_agglomerative_only :
    (mlpack.main exampleWorld ["mlPackCluster", "data"]).calls.map
        (fun inv => inv.file_name) =
      ["dataset0.csv-kmeans.png", "dataset0.csv-dbscan.png", "dataset0.csv-meanshift.png",
       "dataset0.csv-gmm.png", "dataset3.csv-kmeans.png", "dataset3.csv-dbscan.png",
       "dataset3.csv-meanshift.png", "dataset3.csv-gmm.png"] ∧
    (dlib.main exampleDlibWorld ["dlib-cluster", "data"]).calls.map
        (fun inv => inv.file_name) =
      ["dataset0.csv-aggl.png", "dataset3.csv-aggl.png"] := by
  constructor <;> decide

/-! ## The distance matrix of `hierachicalClustering` -/

theorem fill_row {α : Type} (f : Nat → α) (r n : Nat) (d : Mat α) :
    (List.range n).foldl (fun dist c => dlib.Mat.set dist r c (f c)) d =
      ⟨d.n_rows, d.n_cols, fun i j => if i = r ∧ j < n then f j else d.elem i j⟩ := by
  induction n with
  | zero => simp
  | succ n ih =>
    rw [List.range_succ, List.foldl_append, ih]
    simp only [List.foldl_cons, List.foldl_nil, dlib.Mat.set]
    congr 1
    funext i j
    by_cases h1 : i = r ∧ j = n
    · obtain ⟨rfl, rfl⟩ := h1
      simp
    · by_cases h2 : i = r ∧ j < n
      · have : i = r ∧ j < n + 1 := ⟨h2.1, Nat.lt_succ_of_lt h2.2⟩
        rw [if_neg h1, if_pos h2, if_pos this]
      · have : ¬ (i = r ∧ j < n + 1) := by
          rintro ⟨h3, h4⟩
          rcases Nat.lt_succ_iff_lt_or_eq.mp h4 with h5 | h5
          · exact h2 ⟨h3, h5⟩
          · exact h1 ⟨h3, h5⟩
        rw [if_neg h1, if_neg h2, if_neg this]

theorem fill_rows {α : Type} (f : Nat → Nat → α) (m : Nat) (d : Mat α) :
    (List.range m).foldl
        (fun dist r => (List.range dist.nc).foldl (fun dist c => dlib.Mat.set dist r c (f r c))
          dist) d =
      ⟨d.n_rows, d.n_cols, fun i j => if i < m ∧ j < d.n_cols then f i j else d.elem i j⟩ := by
  induction m with
  | zero => simp
  | succ m ih =>
    rw [List.range_succ, List.foldl_append, ih]
    simp only [List.foldl_cons, List.foldl_nil, Mat.nc]
    rw [fill_row]
    congr 1
    funext i j
    by_cases h1 : i = m ∧ j < d.n_cols
    · have : i < m + 1 ∧ j < d.n_cols := ⟨by omega, h1.2⟩
      rw [if_pos h1, if_pos this, h1.1]
    · by_cases h2 : i < m ∧ j < d.n_cols
      · have : i < m + 1 ∧ j < d.n_cols := ⟨by omega, h2.2⟩
        rw [if_neg h1]
        show (if i < m ∧ j < d.n_cols then f i j else d.elem i j) = _
        rw [if_pos h2, if_pos this]
      · have : ¬ (i < m + 1 ∧ j < d.n_cols) := by
          rintro ⟨h3, h4⟩
          rcases Nat.lt_succ_iff_lt_or_eq.mp h3 with h5 | h5
          · exact h2 ⟨h5, h4⟩
          · exact h1 ⟨h5, h4⟩
        rw [if_neg h1]
        show (if i < m ∧ j < d.n_cols then f i j else d.elem i j) = _
        rw [if_neg h2, if_neg this]

/-- After the two nested loops `dist` is `n x n` and every entry holds the row distance,
whatever the storage held before. -/
theorem hierachicalClustering_dist_spec {α : Type} [Add α] [Sub α] [Mul α] [Zero α]
    (sqrt : α → α) (uninit : Nat → Nat → α) (inputs : Mat α) :
    (dlib.hierachicalClustering_dist sqrt uninit inputs).nr = inputs.nr ∧
    (dlib.hierachicalClustering_dist sqrt uninit inputs).nc = inputs.nr ∧
    ∀ r c, r < inputs.nr → c < inputs.nr →
      (dlib.hierachicalClustering_dist sqrt uninit inputs).elem r c =
        dlib.row_distance sqrt inputs r c := by
  have h := fill_rows (fun r c => dlib.row_distance sqrt inputs r c) inputs.nr
    ⟨inputs.nr, inputs.nr, uninit⟩
  simp only [dlib.hierachicalClustering_dist, Mat.nr] at h ⊢
  rw [h]
  refine ⟨rfl, rfl, fun r c hr hc => ?_⟩
  simp [hr, hc]

theorem row_distance_real (inputs : Mat ℝ) (r c : Nat) :
    dlib.row_distance Real.sqrt inputs r c =
      Real.sqrt ((inputs.elem r 0 - inputs.elem c 0) ^ 2 +
        (inputs.elem r 1 - inputs.elem c 1) ^ 2) := by
  simp [dlib.row_distance, dlib.length, dlib.sum_squared, dlib.Mat.sub, dlib.subm,
    List.range_succ, pow_two]

/-- C5. The distance used by `hierachicalClustering` is the Euclidean metric on the first
two features, with arithmetic over the exact reals: for every input matrix with `n` rows
the matrix `dist` is `n x n`, and for all rows `r, c < n` the entry `dist(r, c)` is the
Euclidean distance of the two feature pairs, is non-negative, equals `dist(c, r)`, is zero
if and only if rows `r` and `c` agree on features 0 and 1, and the diagonal is zero. -/
theorem C5_distance_matrix_metric (uninit : Nat → Nat → ℝ) (inputs : Mat ℝ) :
    (dlib.hierachicalClustering_dist Real.sqrt uninit inputs).nr = inputs.nr ∧
    (dlib.hierachicalClustering_dist Real.sqrt uninit inputs).nc = inputs.nr ∧
    ∀ r c, r < inputs.nr → c < inputs.nr →
      (dlib.hierachicalClustering_dist Real.sqrt uninit inputs).elem r c =
        Real.sqrt ((inputs.elem r 0 - inputs.elem c 0) ^ 2 +
          (inputs.elem r 1 - inputs.elem c 1) ^ 2) ∧
      0 ≤ (dlib.hierachicalClustering_dist Real.sqrt uninit inputs).elem r c ∧
      (dlib.hierachicalClustering_dist Real.sqrt uninit inputs).elem r c =
        (dlib.hierachicalClustering_dist Real.sqrt uninit inputs).elem c r ∧
      ((dlib.hierachicalClustering_dist Real.sqrt uninit inputs).elem r c = 0 ↔
        inputs.elem r 0 = inputs.elem c 0 ∧ inputs.elem r 1 = inputs.elem c 1) ∧
      (dlib.hierachicalClustering_dist Real.sqrt uninit inputs).elem r r = 0 := by
  obtain ⟨hnr, hnc, hentry⟩ := hierachicalClustering_dist_spec Real.sqrt uninit inputs
  refine ⟨hnr, hnc, fun r c hr hc => ?_⟩
  rw [hentry r c hr hc, hentry c r hc hr, hentry r r hr hr]
  simp only [row_distance_real]
  refine ⟨trivial, Real.sqrt_nonneg _, ?_, ?_, by simp⟩
  · congr 1
    ring
  · rw [Real.sqrt_eq_zero']
    constructor
    · intro h
      have h0 : 0 ≤ (inputs.elem r 0 - inputs.elem c 0) ^ 2 := sq_nonneg _
      have h1 : 0 ≤ (inputs.elem r 1 - inputs.elem c 1) ^ 2 := sq_nonneg _
      have e0 : (inputs.elem r 0 - inputs.elem c 0) ^ 2 = 0 := by linarith
      have e1 : (inputs.elem r 1 - inputs.elem c 1) ^ 2 = 0 := by linarith
      exact ⟨sub_eq_zero.mp ((pow_eq_zero_iff (two_ne_zero)).mp e0),
        sub_eq_zero.mp ((pow_eq_zero_iff (two_ne_zero)).mp e1)⟩
    · rintro ⟨h0, h1⟩
      simp [h0, h1]

/-- Instance of C5: rows `(0, 0)` and `(3, 4)` of a two-row matrix are at distance
`sqrt (3^2 + 4^2)`, symmetric and non-zero. -/
theorem C5_distance_matrix_metric_witness :
    (0 : Nat) < (⟨2, 2, fun r c => if r = 0 then 0 else if c = 0 then 3 else 4⟩ : Mat ℝ).nr ∧
    (1 : Nat) < (⟨2, 2, fun r c => if r = 0 then 0 else if c = 0 then 3 else 4⟩ : Mat ℝ).nr ∧
    (dlib.hierachicalClustering_dist Real.sqrt (fun _ _ => 7)
        ⟨2, 2, fun r c => if r = 0 then 0 else if c = 0 then 3 else 4⟩).elem 0 1 =
      (dlib.hierachicalClustering_dist Real.sqrt (fun _ _ => 7)
        ⟨2, 2, fun r c => if r = 0 then 0 else if c = 0 then 3 else 4⟩).elem 1 0 :=
  ⟨by decide, by decide,
   ((C5_distance_matrix_metric (fun _ _ => 7)
      ⟨2, 2, fun r c => if r = 0 then 0 else if c = 0 then 3 else 4⟩).2.2 0 1
      (by decide) (by decide)).2.2.1⟩

/-! ## The specified k-means core behind `kmeanClustering` -/

open KMeansSpec

theorem nearestFrom_lt (s : Sample) (rest : List Sample) (j best : Nat) (bestDist : ℚ)
    (h : best < j) : nearestFrom s rest j best bestDist < j + rest.length := by
  induction rest generalizing j best bestDist with
  | nil => simpa [nearestFrom] using h
  | cons c rest ih =>
    simp only [nearestFrom, List.length_cons]
    split
    · have := ih (j + 1) j (sqDist s c) (Nat.lt_succ_self j)
      omega
    · have := ih (j + 1) best bestDist (Nat.lt_succ_of_lt h)
      omega

theorem nearest_lt (centroids : List Sample) (s : Sample) (h : 0 < centroids.length) :
    nearest centroids s < centroids.length := by
  cases centroids with
  | nil => simp at h
  | cons c rest =>
    have := nearestFrom_lt s rest 1 0 (sqDist s c) Nat.zero_lt_one
    simp only [nearest, List.length_cons]
    omega

theorem length_updateStep (data : List Sample) (assignment : List Nat)
    (centroids : List Sample) :
    (updateStep data assignment centroids).length = centroids.length := by
  simp [updateStep]

/-- Every state returned by the controller holds `k` centroids and an assignment of all
`n` samples to indices below `k`. -/
theorem iterate_invariant (cfg : Config) (data : List Sample) (k : Nat) (hk : 0 < k)
    (remaining : Nat) (st : ClusterState) (hc : st.centroids.length = k)
    (ha : st.assignment.length = data.length) (hlt : ∀ c, c ∈ st.assignment → c < k) :
    (iterate cfg data remaining st).centroids.length = k ∧
    (iterate cfg data remaining st).assignment.length = data.length ∧
    ∀ c, c ∈ (iterate cfg data remaining st).assignment → c < k := by
  induction remaining generalizing st with
  | zero => exact ⟨hc, ha, hlt⟩
  | succ remaining ih =>
    have h1 : (updateStep data (assignStep st.centroids data) st.centroids).length = k := by
      rw [length_updateStep, hc]
    have h2 : (assignStep st.centroids data).length = data.length := by
      simp [assignStep]
    have h3 : ∀ c, c ∈ assignStep st.centroids data → c < k := by
      intro c hmem
      simp only [assignStep, List.mem_map] at hmem
      obtain ⟨s, -, rfl⟩ := hmem
      rw [← hc]
      exact nearest_lt _ _ (by omega)
    simp only [iterate]
    split
    · exact ⟨h1, h2, h3⟩
    · exact ih _ h1 h2 h3

theorem run_ok (cfg : Config) (data : List Sample) (k : Nat) (init : List Sample)
    (hk : 1 ≤ k) (hn : k ≤ data.length) (hinit : init.length = k)
    (hdim : ∀ s, s ∈ data ++ init → s.length = (data.headD []).length) :
    ∃ st, run cfg data k init = Except.ok st ∧ st.centroids.length = k ∧
      st.assignment.length = data.length ∧ ∀ c, c ∈ st.assignment → c < k := by
  have hvalid : validInput data k init = true := by
    have hne : data.isEmpty = false := by
      cases data with
      | nil => simp at hn; omega
      | cons s rest => rfl
    simp only [validInput, hne, Bool.not_false, Bool.true_and, Bool.and_eq_true,
      decide_eq_true_eq, List.all_eq_true]
    exact ⟨⟨hk, hn⟩, hdim⟩
  refine ⟨_, by simp only [run, hvalid, if_true]; rfl, ?_⟩
  apply iterate_invariant cfg data k hk _ _ hinit
  · simp [assignStep]
  · intro c hmem
    simp only [assignStep, List.mem_map] at hmem
    obtain ⟨s, -, rfl⟩ := hmem
    rw [← hinit]
    exact nearest_lt _ _ (by omega)

theorem length_le_of_keys_lt {α : Type} (m : Clusters α) (k : Nat) (hnd : (keys m).Nodup)
    (hlt : ∀ c, c ∈ keys m → c < k) : m.length ≤ k := by
  have hsub : keys m ⊆ List.range k := fun c hc => List.mem_range.mpr (hlt c hc)
  have := (List.subperm_of_subset hnd hsub).length_le
  simpa [keys] using this

theorem columnSamples_dim (inputs : Mat ℚ) (s : Sample) (hs : s ∈ columnSamples inputs) :
    s.length = inputs.n_rows := by
  simp only [columnSamples, List.mem_map, List.mem_range] at hs
  obtain ⟨i, -, rfl⟩ := hs
  simp

theorem headD_dim (data : List Sample) (d : Nat) (hne : 0 < data.length)
    (h : ∀ s, s ∈ data → s.length = d) : (data.headD []).length = d := by
  cases data with
  | nil => simp at hne
  | cons s rest => exact h s (List.mem_cons_self _ _)

/-- C3, as amended. For all `k` with `1 ≤ k ≤ n`, running `kmeanClustering` on top of
the specified k-means core (any tolerance, any iteration cap, any `k` initial centroids
of the samples' dimension) returns: the run ends within the iteration cap, and the
cluster map handed to `PlotClusters` has at most `k` entries, every one of which holds
at least one point. Stated for the mlpack routine (samples are columns, `n =
inputs.n_cols`) and for the dlib routine (samples are rows, `n = inputs.nr`). -/
theorem C3_kmeans_at_most_k_clusters (cfg : Config) (init : List Sample) (inputs : Mat ℚ)
    (k : Nat) (name : String) (hk : 1 ≤ k) (hinit : init.length = k) :
    (k ≤ inputs.n_cols → (∀ c, c ∈ init → c.length = inputs.n_rows) →
      ∃ call, mlpack.kmeanClustering (KMeans_Cluster cfg init) inputs k name = some call ∧
        call.clusters.length ≤ k ∧
        ∀ c p, (c, p) ∈ call.clusters → 0 < p.1.length ∧ 0 < p.2.length) ∧
    (k ≤ inputs.nr → (∀ c, c ∈ init → c.length = 2) →
      ∃ call, dlib.kmeanClustering (kkmeans_train cfg init) inputs k name = some call ∧
        call.clusters.length ≤ k ∧
        ∀ c p, (c, p) ∈ call.clusters → 0 < p.1.length ∧ 0 < p.2.length) := by
  constructor
  · intro hn hdim
    have hlen : (columnSamples inputs).length = inputs.n_cols := by simp [columnSamples]
    have hhead : ((columnSamples inputs).headD []).length = inputs.n_rows :=
      headD_dim _ _ (by omega) (columnSamples_dim inputs)
    obtain ⟨st, hrun, -, hal, hlt⟩ := run_ok cfg (columnSamples inputs) k init hk
      (by omega) hinit (by
        intro s hs
        rw [hhead]
        rcases List.mem_append.mp hs with h | h
        · exact columnSamples_dim inputs s h
        · exact hdim s h)
    obtain ⟨m, hm, ⟨hnd, hkeys, -⟩, ⟨-, heq, -⟩, hpos⟩ :=
      mlpack_groupLoop_spec inputs st.assignment (by rw [hal, hlen])
    refine ⟨⟨m, "K-Means", name ++ "-kmeans.png"⟩, ?_, ?_, ?_⟩
    · simp only [mlpack.kmeanClustering, KMeans_Cluster, hrun, hm]
    · exact length_le_of_keys_lt m k hnd (fun c hc => hlt c ((hkeys c).mp hc))
    · intro c p hp
      have h1 := hpos c p hp
      have h2 := heq c p hp
      exact ⟨h1, by omega⟩
  · intro hn hdim
    have hlen : ((dlib.kmeanClustering_samples inputs).map (fun s => [s.1, s.2])).length =
        inputs.nr := by
      rw [List.length_map, length_kmeanClustering_samples]
    have hdata : ∀ s, s ∈ (dlib.kmeanClustering_samples inputs).map (fun s => [s.1, s.2]) →
        s.length = 2 := by
      intro s hs
      obtain ⟨q, -, rfl⟩ := List.mem_map.mp hs
      rfl
    have hhead := headD_dim _ 2 (by omega) hdata
    obtain ⟨st, hrun, hcl, -, -⟩ := run_ok cfg
      ((dlib.kmeanClustering_samples inputs).map (fun s => [s.1, s.2])) k init hk
      (by omega) hinit (by
        intro s hs
        rw [hhead]
        rcases List.mem_append.mp hs with h | h
        · exact hdata s h
        · exact hdim s h)
    obtain ⟨m, hm, ⟨hnd, hkeys, -⟩, ⟨-, heq, -⟩, hpos⟩ :=
      dlib_kmeanLoop_spec inputs (fun s => nearest st.centroids [s.1, s.2])
    refine ⟨⟨m, "K-Means", name ++ "-kmeans.png"⟩, ?_, ?_, ?_⟩
    · simp only [dlib.kmeanClustering, kkmeans_train, hrun, hm]
    · apply length_le_of_keys_lt m k hnd
      intro c hc
      obtain ⟨q, -, rfl⟩ := List.mem_map.mp ((hkeys c).mp hc)
      rw [← hcl]
      exact nearest_lt _ _ (by omega)
    · intro c p hp
      have h1 := hpos c p hp
      have h2 := heq c p hp
      exact ⟨h1, by omega⟩

/-- Instance of C3 (amended): three samples, `k = 2`, initial centroids `(0, 10)` and
`(2, 12)`. -/
theorem C3_kmeans_at_most_k_clusters_witness :
    (1 ≤ 2 ∧ [[0, 10], [2, 12]].length = 2 ∧ 2 ≤ exampleColumns.n_cols ∧
      (∀ c, c ∈ ([[0, 10], [2, 12]] : List Sample) → c.length = exampleColumns.n_rows)) ∧
    ∃ call, mlpack.kmeanClustering (KMeans_Cluster ⟨1 / 1000, 100⟩ [[0, 10], [2, 12]])
        exampleColumns 2 "dataset0.csv" = some call ∧
      call.clusters.length ≤ 2 ∧
      ∀ c p, (c, p) ∈ call.clusters → 0 < p.1.length ∧ 0 < p.2.length := by
  have hdim : ∀ c, c ∈ ([[0, 10], [2, 12]] : List Sample) → c.length = exampleColumns.n_rows := by
    intro c hc
    simp only [List.mem_cons, List.mem_singleton, List.not_mem_nil, or_false] at hc
    rcases hc with rfl | rfl <;> rfl
  have hcols : 2 ≤ exampleColumns.n_cols := by decide
  exact ⟨⟨by decide, rfl, hcols, hdim⟩,
    (C3_kmeans_at_most_k_clusters ⟨1 / 1000, 100⟩ [[0, 10], [2, 12]] exampleColumns 2
      "dataset0.csv" (by decide) rfl).1 hcols hdim⟩

/-- Counterexample to C3 as stated (all `k ≤ n`, so also `k = 0`): on three samples with
`k = 0` the specified core stops with `InvalidInput` and no cluster map reaches
`PlotClusters`; and whatever assignment vector of length 3 a k-means engine returned,
the grouping loop would build a map with more than `0` entries. -/
theorem C3_counterexample :
    0 ≤ exampleColumns.n_cols ∧
    mlpack.kmeanClustering (KMeans_Cluster ⟨1 / 1000, 100⟩ []) exampleColumns 0
      "dataset0.csv" = none ∧
    ∀ a m, a.length = exampleColumns.n_cols → mlpack.groupLoop exampleColumns a = some m →
      ¬ m.length ≤ 0 := by
  refine ⟨Nat.zero_le _, ?_, ?_⟩
  · simp [mlpack.kmeanClustering, KMeans_Cluster, run, validInput]
  · intro a m ha hm hle
    obtain ⟨m', hm', -, ⟨hcount, -, -⟩, -⟩ := mlpack_groupLoop_spec exampleColumns a ha
    rw [hm] at hm'
    cases hm'
    have hnil : m = [] := List.length_eq_zero.mp (Nat.le_zero.mp hle)
    rw [hnil] at hcount
    exact absurd hcount (by decide)

/-! ## The scenario of section 8 -/

end Clustering
